import Mathlib

/-!
# DBPFKit — verification of the QFS / DBPF / RUL0 / Exemplar decoding core

Shallow embedding of the decoding pipeline of the DBPFKit repository
(`src/QFSDecompressor.cpp`, `src/DBPFReader.cpp`, `src/TGI.h`,
`src/RUL0.cpp`, `src/ExemplarReader.cpp`) together with theorems that
settle the specification claims about it.

Bytes are modelled as `Nat` (the C++ code operates on `uint8_t`, masking
with `& 0xFF` where it reads wider storage); byte buffers are `List Nat`;
machine-integer overflow is made explicit with `% 2^w` where the C++
performs unsigned wrap-around; fallible functions return `Except String`
or `Option`, mirroring `ParseExpected`/`std::optional`.
-/

namespace QFS

/-- Embeds `Read24BE` (`QFSDecompressor.cpp`): big-endian 24-bit
uncompressed length stored in bytes 2..4. -/
def read24BE (data : List Nat) : Nat :=
  ((data.getD 2 0) <<< 16) ||| ((data.getD 3 0) <<< 8) ||| (data.getD 4 0)

def MAGIC_COMPRESSED : Nat := 0x10FB

/-- The magic word computed by both `Decompress` and `IsQFSCompressed`:
`(data[0] & 0xFE) << 8 | data[1]`. -/
def magicOf (data : List Nat) : Nat :=
  (((data.getD 0 0) &&& 0xFE) <<< 8) ||| (data.getD 1 0)

/-- Embeds `QFS::Decompressor::IsQFSCompressed`. -/
def isQFSCompressed (buffer : List Nat) : Bool :=
  5 ≤ buffer.length && (magicOf buffer == MAGIC_COMPRESSED)

/-- The byte-by-byte back-reference copy loop of `OffsetCopy`
(`buffer[destPos + i] = buffer[srcPos + i]`).  The output buffer is
represented by the list of bytes written so far, so the write position
`destPos + i` is the list length and the read position `srcPos + i`
is `length - offset`. -/
def offsetCopyRun (offset : Nat) : Nat → List Nat → List Nat
  | 0, out => out
  | len + 1, out => offsetCopyRun offset len (out ++ [out.getD (out.length - offset) 0])

/-- Embeds `OffsetCopy` (`QFSDecompressor.cpp`): guard
`offset <= 0 || offset > destPos`, then the copy loop.  `destPos`
(the code's `outPos`) is the length of the written prefix `out`. -/
def offsetCopy (out : List Nat) (offset len : Nat) : Except String (List Nat) :=
  if offset = 0 || out.length < offset then Except.error "Invalid QFS offset"
  else Except.ok (offsetCopyRun offset len out)

/-- The `outPos != outputSize` check performed after the decode loop of
`DecompressInternal` (also reached through the terminator `break`). -/
def finalCheck (outputSize : Nat) (out : List Nat) : Except String (List Nat) :=
  if out.length = outputSize then Except.ok out
  else Except.error "QFS decompression wrote wrong number of bytes"

/-- Result of one iteration of the decode loop: either continue with a
new input position and output prefix, or stop with a final result. -/
inductive StepResult where
  | cont (inPos : Nat) (out : List Nat)
  | done (r : Except String (List Nat))

/-- One iteration of the `while` loop of
`QFS::Decompressor::DecompressInternal`, for a control byte at `inPos`
(`inPos < input.length`).  The code's `outPos` is `out.length`, because
the code fills the output buffer as a contiguous prefix.  The terminator
class (`0xFC..0xFF`) `break`s into the final length check. -/
def decompressStep (input : List Nat) (outputSize : Nat) (inPos : Nat) (out : List Nat) :
    StepResult :=
  let c := input.getD inPos 0 &&& 0xFF
  if c ≤ 0x7F then
    -- two-byte control, 3..10-byte back reference
    if input.length ≤ inPos + 1 then
      StepResult.done (Except.error "QFS truncated in control1<=0x7F block")
    else
      let b0 := input.getD (inPos + 1) 0 &&& 0xFF
      let litLen := c &&& 0x03
      if input.length < inPos + 2 + litLen then
        StepResult.done (Except.error "QFS literal overruns input (short block)")
      else if outputSize < out.length + litLen then
        StepResult.done (Except.error "QFS literal overruns output (short block)")
      else
        let out1 := out ++ (input.drop (inPos + 2)).take litLen
        let offset := ((c &&& 0x60) <<< 3) + b0 + 1
        let copyLen := ((c &&& 0x1C) >>> 2) + 3
        if outputSize < out1.length + copyLen then
          StepResult.done (Except.error "QFS copy overruns output (short block)")
        else
          match offsetCopy out1 offset copyLen with
          | Except.error e => StepResult.done (Except.error e)
          | Except.ok out2 => StepResult.cont (inPos + 2 + litLen) out2
  else if c ≤ 0xBF then
    -- three-byte control
    if input.length ≤ inPos + 2 then
      StepResult.done (Except.error "QFS truncated in control1<=0xBF block")
    else
      let b0 := input.getD (inPos + 1) 0 &&& 0xFF
      let b1 := input.getD (inPos + 2) 0 &&& 0xFF
      let litLen := (b0 >>> 6) &&& 0x03
      if input.length < inPos + 3 + litLen then
        StepResult.done (Except.error "QFS literal overruns input (mid block)")
      else if outputSize < out.length + litLen then
        StepResult.done (Except.error "QFS literal overruns output (mid block)")
      else
        let out1 := out ++ (input.drop (inPos + 3)).take litLen
        let offset := ((b0 &&& 0x3F) <<< 8) + b1 + 1
        let copyLen := (c &&& 0x3F) + 4
        if outputSize < out1.length + copyLen then
          StepResult.done (Except.error "QFS copy overruns output (mid block)")
        else
          match offsetCopy out1 offset copyLen with
          | Except.error e => StepResult.done (Except.error e)
          | Except.ok out2 => StepResult.cont (inPos + 3 + litLen) out2
  else if c ≤ 0xDF then
    -- four-byte control
    if input.length ≤ inPos + 3 then
      StepResult.done (Except.error "QFS truncated in control1<=0xDF block")
    else
      let b0 := input.getD (inPos + 1) 0 &&& 0xFF
      let b1 := input.getD (inPos + 2) 0 &&& 0xFF
      let b2 := input.getD (inPos + 3) 0 &&& 0xFF
      let litLen := c &&& 0x03
      if input.length < inPos + 4 + litLen then
        StepResult.done (Except.error "QFS literal overruns input (long block)")
      else if outputSize < out.length + litLen then
        StepResult.done (Except.error "QFS literal overruns output (long block)")
      else
        let out1 := out ++ (input.drop (inPos + 4)).take litLen
        let offset := ((c &&& 0x10) <<< 12) + (b0 <<< 8) + b1 + 1
        let copyLen := ((c &&& 0x0C) <<< 6) + b2 + 5
        if outputSize < out1.length + copyLen then
          StepResult.done (Except.error "QFS copy overruns output (long block)")
        else
          match offsetCopy out1 offset copyLen with
          | Except.error e => StepResult.done (Except.error e)
          | Except.ok out2 => StepResult.cont (inPos + 4 + litLen) out2
  else if c ≤ 0xFB then
    -- raw literal run
    let litLen := ((c &&& 0x1F) <<< 2) + 4
    if input.length < inPos + 1 + litLen then
      StepResult.done (Except.error "QFS literal overruns input (raw block)")
    else if outputSize < out.length + litLen then
      StepResult.done (Except.error "QFS literal overruns output (raw block)")
    else
      StepResult.cont (inPos + 1 + litLen) (out ++ (input.drop (inPos + 1)).take litLen)
  else
    -- terminator: copy the trailing literal, then break to the length check
    let litLen := c &&& 0x03
    if input.length < inPos + 1 + litLen then
      StepResult.done (Except.error "QFS literal overruns input (terminator block)")
    else if outputSize < out.length + litLen then
      StepResult.done (Except.error "QFS literal overruns output (terminator block)")
    else
      StepResult.done (finalCheck outputSize (out ++ (input.drop (inPos + 1)).take litLen))

/-- The `while` loop of `DecompressInternal`: run `decompressStep` while
`inPos < input.length` (every non-terminator class re-enters the loop
with `control1 ≤ 0xFB < 0xFC`, so the loop condition's `control1 < 0xFC`
conjunct only ever exits through the terminator's `break`, which
`decompressStep` models directly).  Each iteration consumes at least one
input byte, so the explicit `fuel` (called with `input.length + 1`)
never runs out; the fuel-exhaustion branch is unreachable. -/
def decompressLoop (input : List Nat) (outputSize : Nat) :
    Nat → Nat → List Nat → Except String (List Nat)
  | 0, _, _ => Except.error "QFS loop fuel exhausted"
  | fuel + 1, inPos, out =>
    if inPos < input.length then
      match decompressStep input outputSize inPos out with
      | StepResult.done r => r
      | StepResult.cont inPos' out' => decompressLoop input outputSize fuel inPos' out'
    else
      finalCheck outputSize out

/-- Embeds `QFS::Decompressor::Decompress`, returning the decompressed
bytes on success.  (`DecompressInternal` starts at offset 8 when
`input[0] & 0x01` is set, else 5.) -/
def decompress (input : List Nat) : Except String (List Nat) :=
  if input.length < 5 then Except.error "QFS payload too small"
  else if magicOf input ≠ MAGIC_COMPRESSED then Except.error "QFS magic mismatch"
  else if read24BE input = 0 then Except.ok []
  else
    decompressLoop input (read24BE input) (input.length + 1)
      (if input.getD 0 0 &&& 0x01 ≠ 0 then 8 else 5) []

/-- Embeds `Decompress` together with the state of its in/out `output`
parameter: the first component is the returned `ParseExpected<size_t>`,
the second the final contents of `output` (which starts as `out0`, is
untouched by the size and magic checks, is assigned `uncompressedSize`
zero bytes before the decode, and is cleared when the stream decode
fails). -/
def decompressRun (input out0 : List Nat) : Except String Nat × List Nat :=
  if input.length < 5 then (Except.error "QFS payload too small", out0)
  else if magicOf input ≠ MAGIC_COMPRESSED then (Except.error "QFS magic mismatch", out0)
  else if read24BE input = 0 then (Except.ok 0, [])
  else
    match decompressLoop input (read24BE input) (input.length + 1)
        (if input.getD 0 0 &&& 0x01 ≠ 0 then 8 else 5) [] with
    | Except.ok out => (Except.ok (read24BE input), out)
    | Except.error e => (Except.error e, [])


/-- One control record of the QFS stream grammar, as given by the
opcode table in §4.2 of the spec: number of trailing control bytes,
literal length, back-reference length and offset, terminator flag. -/
structure QfsRecord where
  trailing : Nat
  litLen : Nat
  backLen : Nat
  offset : Nat
  terminator : Bool
deriving DecidableEq

/-- Modelled from the spec: the opcode table of §4.2, written with the
spec's own formulas for each class of control byte `c`. -/
def recordSpec (c b0 b1 b2 : Nat) : QfsRecord :=
  if c ≤ 0x7F then
    { trailing := 1, litLen := c &&& 0x03, backLen := ((c >>> 2) &&& 0x07) + 3,
      offset := ((c &&& 0x60) <<< 3) + b0 + 1, terminator := false }
  else if c ≤ 0xBF then
    { trailing := 2, litLen := (b0 >>> 6) &&& 0x03, backLen := (c &&& 0x3F) + 4,
      offset := ((b0 &&& 0x3F) <<< 8) + b1 + 1, terminator := false }
  else if c ≤ 0xDF then
    { trailing := 3, litLen := c &&& 0x03, backLen := ((c &&& 0x0C) <<< 6) + b2 + 5,
      offset := ((c &&& 0x10) <<< 12) + (b0 <<< 8) + b1 + 1, terminator := false }
  else if c ≤ 0xFB then
    { trailing := 0, litLen := ((c &&& 0x1F) <<< 2) + 4, backLen := 0, offset := 0,
      terminator := false }
  else
    { trailing := 0, litLen := c &&& 0x03, backLen := 0, offset := 0, terminator := true }

/-- The error-message block name for the class of `c` (message texts are
taken from the code; the spec does not pin them). -/
def blockName (c : Nat) : String :=
  if c ≤ 0x7F then "short block"
  else if c ≤ 0xBF then "mid block"
  else if c ≤ 0xDF then "long block"
  else if c ≤ 0xFB then "raw block"
  else "terminator block"

/-- The truncation message for the class of `c`. -/
def truncMsg (c : Nat) : String :=
  if c ≤ 0x7F then "QFS truncated in control1<=0x7F block"
  else if c ≤ 0xBF then "QFS truncated in control1<=0xBF block"
  else "QFS truncated in control1<=0xDF block"

/-- Modelled from the spec: one record of §4.2's grammar — read the
control byte, decode the record through the opcode table `recordSpec`,
copy `literalLength` bytes from input to output, then, if
`backRefLength > 0`, copy `backRefLength` bytes byte-by-byte from output
position `outPos - offset`; after a terminator record the stream ends. -/
def specStep (input : List Nat) (outputSize inPos : Nat) (out : List Nat) : StepResult :=
  let c := input.getD inPos 0 &&& 0xFF
  let r := recordSpec c (input.getD (inPos + 1) 0 &&& 0xFF)
      (input.getD (inPos + 2) 0 &&& 0xFF) (input.getD (inPos + 3) 0 &&& 0xFF)
  if input.length < inPos + 1 + r.trailing then
    StepResult.done (Except.error (truncMsg c))
  else if input.length < inPos + 1 + r.trailing + r.litLen then
    StepResult.done (Except.error ("QFS literal overruns input (" ++ blockName c ++ ")"))
  else if outputSize < out.length + r.litLen then
    StepResult.done (Except.error ("QFS literal overruns output (" ++ blockName c ++ ")"))
  else
    let out1 := out ++ (input.drop (inPos + 1 + r.trailing)).take r.litLen
    if r.terminator then StepResult.done (finalCheck outputSize out1)
    else if r.backLen = 0 then StepResult.cont (inPos + 1 + r.trailing + r.litLen) out1
    else if outputSize < out1.length + r.backLen then
      StepResult.done (Except.error ("QFS copy overruns output (" ++ blockName c ++ ")"))
    else
      match offsetCopy out1 r.offset r.backLen with
      | Except.error e => StepResult.done (Except.error e)
      | Except.ok out2 => StepResult.cont (inPos + 1 + r.trailing + r.litLen) out2

/-- The QFS stream of the spec's scenarios 2 and 3:
`10 FB 00 00 04 E0 'S' 'C' '4' '!' FC 00`. -/
def sc4Qfs : List Nat := [0x10, 0xFB, 0x00, 0x00, 0x04, 0xE0, 83, 67, 52, 33, 0xFC, 0x00]

end QFS

namespace DBPF

/-- Embeds `DBPF::Tgi` (TGI.h).  The C++ field `instance` is a reserved
word in Lean and is rendered `inst`. -/
structure Tgi where
  type : Nat
  group : Nat
  inst : Nat
deriving DecidableEq, Repr

/-- Embeds `DBPF::TgiMask` (TGI.h). -/
structure TgiMask where
  type : Option Nat
  group : Option Nat
  inst : Option Nat
deriving DecidableEq, Repr

/-- Embeds `TgiMask::Matches`: every present component must equal the
key's corresponding component. -/
def TgiMask.Matches (m : TgiMask) (t : Tgi) : Bool :=
  (match m.type with | some v => v == t.type | none => true) &&
  (match m.group with | some v => v == t.group | none => true) &&
  (match m.inst with | some v => v == t.inst | none => true)

/-- `kDirectoryTgi` (DBPFReader.h). -/
def kDirectoryTgi : Tgi := ⟨0xE86B1EEF, 0xE86B1EEF, 0x286B1F03⟩

/-- Embeds `DBPF::IndexEntry` (DBPFStructures.h): key, payload offset
and size, optional decompressed size from the directory record. -/
structure IndexEntry where
  tgi : Tgi
  offset : Nat
  size : Nat
  decompressedSize : Option Nat
deriving DecidableEq, Repr

/-- Embeds `DBPF::Header` (DBPFReader.h). -/
structure Header where
  majorVersion : Nat
  minorVersion : Nat
  dateCreated : Nat
  dateModified : Nat
  indexType : Nat
  indexEntryCount : Nat
  indexOffsetLocation : Nat
  indexSize : Nat
  holeEntryCount : Nat
  holeOffsetLocation : Nat
  holeSize : Nat
deriving DecidableEq, Repr

def emptyHeader : Header := ⟨0, 0, 0, 0, 0, 0, 0, 0, 0, 0, 0⟩

/-- Embeds the anonymous-namespace `ReadUInt32LE` of DBPFReader.cpp. -/
def readUInt32LE (data : List Nat) (off : Nat) : Nat :=
  data.getD off 0 ||| (data.getD (off + 1) 0 <<< 8) |||
  (data.getD (off + 2) 0 <<< 16) ||| (data.getD (off + 3) 0 <<< 24)

def kHeaderSize : Nat := 0x60
def kMagicDBPF : Nat := 0x46504244
def kSupportedIndexType : Nat := 7

/-- Embeds `Reader::ParseHeader`: magic `"DBPF"`, headers fields at the
fixed offsets, major=1, minor=0, indexType=7. -/
def parseHeader (buffer : List Nat) : Option Header :=
  if buffer.length < kHeaderSize then Option.none
  else if readUInt32LE buffer 0 ≠ kMagicDBPF then Option.none
  else
    let hdr : Header :=
      { majorVersion := readUInt32LE buffer 4, minorVersion := readUInt32LE buffer 8,
        dateCreated := readUInt32LE buffer 24, dateModified := readUInt32LE buffer 28,
        indexType := readUInt32LE buffer 32, indexEntryCount := readUInt32LE buffer 36,
        indexOffsetLocation := readUInt32LE buffer 40, indexSize := readUInt32LE buffer 44,
        holeEntryCount := readUInt32LE buffer 48, holeOffsetLocation := readUInt32LE buffer 52,
        holeSize := readUInt32LE buffer 56 }
    if hdr.majorVersion ≠ 1 ∨ hdr.minorVersion ≠ 0 then Option.none
    else if hdr.indexType ≠ kSupportedIndexType then Option.none
    else some hdr

/-- The per-entry loop of `Reader::ParseIndexSpan`: `count` records of
20 bytes, each guarded by `ptr + 20 > end`. -/
def parseIndexEntriesAux (span : List Nat) : Nat → Nat → List IndexEntry → Option (List IndexEntry)
  | 0, _, acc => some acc.reverse
  | n + 1, pos, acc =>
    if span.length < pos + 20 then Option.none
    else
      parseIndexEntriesAux span n (pos + 20)
        ({ tgi := ⟨readUInt32LE span pos, readUInt32LE span (pos + 4), readUInt32LE span (pos + 8)⟩,
           offset := readUInt32LE span (pos + 12), size := readUInt32LE span (pos + 16),
           decompressedSize := Option.none } :: acc)

/-- Embeds `Reader::ParseIndexSpan`.  The guard
`buffer.size() < indexEntryCount * 20` multiplies in `uint32_t`, so the
product wraps modulo `2^32`. -/
def parseIndexSpan (count : Nat) (span : List Nat) : Option (List IndexEntry) :=
  if span.length < (count * 20) % 4294967296 then Option.none
  else parseIndexEntriesAux span count 0 []

/-- `Reader::DataSource` (mapped files are outside the model: only the
buffer-backed source of `LoadBuffer` is embedded). -/
inductive DataSource where
  | kNone
  | kBuffer
deriving DecidableEq, Repr

/-- The `Reader` state relevant to loading and reading:
`mFileBuffer`, `mHeader`, `mIndex` and `mDataSource`.  The hash indices
(`mTGIIndex`, `mTypeIndex`, `mGroupIndex`, `mInstanceIndex`) are derived
views of `mIndex` (built from it by `ParseIndexSpan`, keyed by the full
key / one component, first entry winning for duplicate full keys) and
are modelled by filtering `index` directly. -/
structure ReaderState where
  fileBuffer : List Nat
  header : Header
  index : List IndexEntry
  dataSource : DataSource
deriving Repr

def initialReader : ReaderState := ⟨[], emptyHeader, [], DataSource.kNone⟩

/-- Embeds `Reader::FindEntry` through `mTGIIndex` (an
`unordered_map` filled with `emplace`, so the first index entry with a
given key wins). -/
def findEntry (st : ReaderState) (t : Tgi) : Option IndexEntry :=
  st.index.find? (fun e => e.tgi == t)

/-- Embeds `Reader::FindEntries(TgiMask)`: walk the type bucket when
`mask.type` is present, else the group bucket, else the instance
bucket, else the whole index, filtering with `Matches`. -/
def findEntries (st : ReaderState) (mask : TgiMask) : List IndexEntry :=
  match mask.type with
  | some t =>
      (st.index.filter (fun e => e.tgi.type == t)).filter (fun e => mask.Matches e.tgi)
  | Option.none =>
    match mask.group with
    | some g =>
        (st.index.filter (fun e => e.tgi.group == g)).filter (fun e => mask.Matches e.tgi)
    | Option.none =>
      match mask.inst with
      | some i =>
          (st.index.filter (fun e => e.tgi.inst == i)).filter (fun e => mask.Matches e.tgi)
      | Option.none => st.index.filter (fun e => mask.Matches e.tgi)

/-- Embeds `Reader::LoadEntryData` for the buffer-backed source
(`DataSource::kBuffer`); with no source loaded it fails. -/
def loadEntryData (st : ReaderState) (entry : IndexEntry) : Option (List Nat) :=
  match st.dataSource with
  | DataSource.kBuffer =>
      if st.fileBuffer = [] ∨ st.fileBuffer.length < entry.offset ∨
          st.fileBuffer.length < entry.offset + entry.size then Option.none
      else some ((st.fileBuffer.drop entry.offset).take entry.size)
  | DataSource.kNone => Option.none

/-- Updates `decompressedSize` of the index entry `mTGIIndex` maps `t`
to (the first entry with key `t`), as `ApplyDirectoryMetadata` does
through the stored pointer. -/
def setDecompressedSize (idx : List IndexEntry) (t : Tgi) (n : Nat) : List IndexEntry :=
  match idx with
  | [] => []
  | e :: rest =>
      if e.tgi = t then { e with decompressedSize := some n } :: rest
      else e :: setDecompressedSize rest t n

/-- The record walk of `ApplyDirectoryMetadata`: while at least 16 bytes
remain, read `(type, group, instance, decompressedSize)` and attach the
size to the matching index entry, skipping keys with no match.  `fuel`
is called with `payload.length + 1` and cannot run out (16 bytes are
consumed per step). -/
def applyDirRecordsAux (idx : List IndexEntry) (payload : List Nat) : Nat → List IndexEntry
  | 0 => idx
  | fuel + 1 =>
    if payload.length < 16 then idx
    else
      applyDirRecordsAux
        (setDecompressedSize idx
          ⟨readUInt32LE payload 0, readUInt32LE payload 4, readUInt32LE payload 8⟩
          (readUInt32LE payload 12))
        (payload.drop 16) fuel

/-- Embeds `Reader::ApplyDirectoryMetadata`: no directory entry is a
success; a directory entry whose payload cannot be loaded is a failure;
otherwise walk the 16-byte records. -/
def applyDirectoryMetadata (st : ReaderState) : Option ReaderState :=
  match findEntry st kDirectoryTgi with
  | Option.none => some st
  | some dirEntry =>
    match loadEntryData st dirEntry with
    | Option.none => Option.none
    | some payload =>
        some { st with index := applyDirRecordsAux st.index payload (payload.length + 1) }

/-- Embeds `Reader::ParseBuffer`, returning the success flag together
with the resulting reader state (the C++ mutates the state in place, so
failures after the index was built leave it populated). -/
def parseBuffer (st0 : ReaderState) : Bool × ReaderState :=
  let buffer := st0.fileBuffer
  let st := { st0 with index := [] }
  if buffer.length < kHeaderSize then (false, st)
  else
    match parseHeader buffer with
    | Option.none => (false, st)
    | some hdr =>
      let st := { st with header := hdr }
      if buffer.length < hdr.indexOffsetLocation + hdr.indexSize then (false, st)
      else
        match parseIndexSpan hdr.indexEntryCount
            ((buffer.drop hdr.indexOffsetLocation).take hdr.indexSize) with
        | Option.none => (false, st)
        | some idx =>
          let st := { st with index := idx }
          match applyDirectoryMetadata st with
          | Option.none => (false, st)
          | some st' => (true, st')

/-- Embeds `Reader::LoadBuffer`: a null/short buffer is rejected before
any state is touched; otherwise the buffer is adopted and parsed, and on
parse failure the file buffer is cleared and the data source reset
(the index is whatever `ParseBuffer` left behind). -/
def loadBuffer (st0 : ReaderState) (data : List Nat) : Bool × ReaderState :=
  if data.length < kHeaderSize then (false, st0)
  else
    let st1 := { st0 with fileBuffer := data, dataSource := DataSource.kBuffer }
    match parseBuffer st1 with
    | (false, st2) => (false, { st2 with fileBuffer := [], dataSource := DataSource.kNone })
    | (true, st2) => (true, st2)

/-- Embeds `DBPF::IsChunkHeader`, returning
`(chunkHeaderSize, chunkBodySize)` when the payload starts with a chunk
header (flag byte `0x10`/`0x11` at offset 8 or 10). -/
def isChunkHeader (data : List Nat) : Option (Nat × Nat) :=
  if data.length < 9 then Option.none
  else
    let chunkSize := readUInt32LE data 0
    let probe : Nat × Nat :=
      if (data.getD 8 0 ≠ 0x10 ∧ data.getD 8 0 ≠ 0x11) ∧ 11 ≤ data.length then
        (10, data.getD 10 0)
      else (8, data.getD 8 0)
    let flagOffset := probe.1
    let code := probe.2
    if code = 0x10 ∧ 0 < chunkSize ∧ flagOffset + 1 + chunkSize ≤ data.length then
      some (flagOffset + 1, chunkSize)
    else if code = 0x11 ∧ flagOffset + 5 ≤ data.length then
      let body := readUInt32LE data (flagOffset + 1)
      if body = 0 ∨ data.length < flagOffset + 5 + body then Option.none
      else some (flagOffset + 5, body)
    else Option.none

/-- Embeds `DBPF::AlignToQfsSignature`: scan the first 16 offsets for a
big-endian `0x10FB` and advance to it; leave the data alone otherwise. -/
def alignToQfs (data : List Nat) : List Nat :=
  match (List.range 16).find? (fun i =>
      decide (i + 1 < data.length) && (data.getD i 0 == 0x10) && (data.getD (i + 1) 0 == 0xFB)) with
  | some i => data.drop i
  | Option.none => data

/-- Embeds `Reader::ReadEntryData(IndexEntry)`: locate the raw payload,
strip a chunk header if present, align to the QFS magic, then
decompress if the remaining bytes satisfy the QFS detection. -/
def readEntryData (st : ReaderState) (entry : IndexEntry) : Option (List Nat) :=
  match loadEntryData st entry with
  | Option.none => Option.none
  | some raw =>
    let afterChunk :=
      match isChunkHeader raw with
      | some (hdrSize, bodySize) => (raw.drop hdrSize).take bodySize
      | Option.none => raw
    let aligned := alignToQfs afterChunk
    if QFS.isQFSCompressed aligned then
      match QFS.decompress aligned with
      | Except.ok decompressed => some decompressed
      | Except.error _ => Option.none
    else some aligned

/-- Embeds `Reader::ReadEntryData(Tgi)`: look the key up, then read. -/
def readEntryByTgi (st : ReaderState) (t : Tgi) : Option (List Nat) :=
  match findEntry st t with
  | Option.none => Option.none
  | some entry => readEntryData st entry

/-- Little-endian 32-bit serialization, for building concrete archives. -/
def u32le (n : Nat) : List Nat :=
  [n % 256, n / 256 % 256, n / 65536 % 256, n / 16777216 % 256]

/-- A DBPF header (0x60 bytes) with the given index entry count, index
offset and index size. -/
def dbpfHeaderBytes (count idxOff idxSize : Nat) : List Nat :=
  [0x44, 0x42, 0x50, 0x46] ++ u32le 1 ++ u32le 0 ++ List.replicate 12 0 ++
  u32le 0 ++ u32le 0 ++ u32le 7 ++ u32le count ++ u32le idxOff ++ u32le idxSize ++
  List.replicate 48 0

def indexEntryBytes (t g i off sz : Nat) : List Nat :=
  u32le t ++ u32le g ++ u32le i ++ u32le off ++ u32le sz

/-- The 11-byte chunk header of claim C3 / spec scenario 3:
`04 00 00 00 04 00 00 00 00 00 10`. -/
def chunkHeaderClaim : List Nat := [4, 0, 0, 0, 4, 0, 0, 0, 0, 0, 0x10]

/-- The 11-byte chunk header whose leading size field covers the whole
12-byte QFS stream: `0C 00 00 00 0C 00 00 00 00 00 10`. -/
def chunkHeaderGood : List Nat := [12, 0, 0, 0, 12, 0, 0, 0, 0, 0, 0x10]

/-- Archive with one entry at key `(0x11111111, 0x22222222, 0x33333333)`
holding the claim's chunk-wrapped QFS stream. -/
def archChunkClaim : List Nat :=
  dbpfHeaderBytes 1 119 20 ++ chunkHeaderClaim ++ QFS.sc4Qfs ++
  indexEntryBytes 0x11111111 0x22222222 0x33333333 96 23

/-- The same archive with the consistent chunk header. -/
def archChunkGood : List Nat :=
  dbpfHeaderBytes 1 119 20 ++ chunkHeaderGood ++ QFS.sc4Qfs ++
  indexEntryBytes 0x11111111 0x22222222 0x33333333 96 23

/-- Archive with a `"TEST"` entry at key `(1,2,3)` and a directory
entry whose single record lists the absent key `(9,9,9)`. -/
def archDirUnmatched : List Nat :=
  dbpfHeaderBytes 2 116 40 ++ [84, 69, 83, 84] ++
  (u32le 9 ++ u32le 9 ++ u32le 9 ++ u32le 4) ++
  indexEntryBytes 1 2 3 96 4 ++
  indexEntryBytes 0xE86B1EEF 0xE86B1EEF 0x286B1F03 100 16

/-- Archive with a single `"TEST"` entry at key `(1,2,3)`. -/
def archTest : List Nat :=
  dbpfHeaderBytes 1 100 20 ++ [84, 69, 83, 84] ++ indexEntryBytes 1 2 3 96 4

/-- The keys listed by a directory payload, walked exactly as
`applyDirRecordsAux` walks its records. -/
def dirRecordKeys (payload : List Nat) : Nat → List Tgi
  | 0 => []
  | fuel + 1 =>
    if payload.length < 16 then []
    else
      ⟨readUInt32LE payload 0, readUInt32LE payload 4, readUInt32LE payload 8⟩ ::
        dirRecordKeys (payload.drop 16) fuel

/-- A reader that has successfully loaded `archTest`. -/
def loadedTestReader : ReaderState := (loadBuffer initialReader archTest).2

end DBPF

namespace RUL0

/-- `RUL0::Grid` (`std::vector<std::string>`): a list of rows, each row
a list of characters. -/
abbrev Grid := List (List Char)

/-- Embeds `RUL0::NetworkType` (RUL0.h). -/
inductive NetworkType where
  | ROAD | RAIL | HIGHWAY | STREET | PIPE | POWERLINE | AVENUE | SUBWAY
  | LIGHT_RAIL | MONORAIL | ONE_WAY_ROAD | DIRT_ROAD | GROUND_HIGHWAY | NONE
deriving DecidableEq, Repr

/-- Embeds `RUL0::NetworkCheck` (RUL0.h); the two flag words are
`uint32_t`. -/
structure NetworkCheck where
  networkType : NetworkType
  ruleFlagByte : Nat
  hexMask : Nat
  optional : Bool
  check : Bool
deriving DecidableEq, Repr

/-- Embeds `RUL0::CheckType` (RUL0.h). -/
structure CheckType where
  initialized : Bool
  symbol : Char
  networks : List NetworkCheck
deriving DecidableEq, Repr

/-- Embeds `RUL0::PreviewEffect` (RUL0.h).  The C++ coordinates are
`float` and are only ever swapped, negated or shifted by the transform
pipeline; they are modelled as integers (no claim mentions them). -/
structure PreviewEffect where
  initialized : Bool
  x : Int
  y : Int
  rotation : Int
  flip : Int
  instanceId : Nat
  name : String
deriving DecidableEq, Repr

/-- Embeds `RUL0::ReplacementIntersection`; `rotation` is the
`Rotation` enum value (0..3, `NONE` = 4). -/
structure ReplacementIntersection where
  initialized : Bool
  rotation : Nat
  flip : Nat
deriving DecidableEq, Repr

/-- Embeds `RUL0::Translation` (`x`, `z` are `uint32_t`). -/
structure Translation where
  initialized : Bool
  x : Nat
  z : Nat
deriving DecidableEq, Repr

/-- Embeds `RUL0::HandleOffset`. -/
structure HandleOffset where
  initialized : Bool
  deltaStraight : Int
  deltaSide : Int
deriving DecidableEq, Repr

/-- Embeds `RUL0::StepOffsets`. -/
structure StepOffsets where
  initialized : Bool
  dragStartThreshold : Nat
  dragCompletionOffset : Nat
deriving DecidableEq, Repr

/-- Modelled from the spec: the transform record held in
`requestedTransform` / `appliedTransform` — "a declarative transform
(copy-from source id, rotation 0..3, transpose flag, translate dx/dz)".
The struct's declaration is missing from the provided sources (RUL0.cpp
uses the fields but RUL0.h does not declare them). -/
structure TransformRecord where
  copyFrom : Nat
  rotate : Nat
  transpose : Bool
  translate : Translation
deriving DecidableEq, Repr

/-- Embeds `RUL0::PuzzlePiece` (RUL0.h).  `rotate` is the `Rotation`
enum as a number (0..3, `NONE` = 4); `oneWayDir` is the `OneWayDir`
enum as a number (0..7, `NONE` = 8). -/
structure PuzzlePiece where
  id : Nat
  effect : PreviewEffect
  cellLayout : Grid
  checkTypes : List CheckType
  consLayout : Grid
  autoPathBase : Nat
  autoTileBase : Nat
  replacementIntersection : ReplacementIntersection
  placeQueryId : Nat
  costs : Nat
  convertQueryId : Nat
  autoPlace : Bool
  handleOffset : HandleOffset
  stepOffsets : StepOffsets
  oneWayDir : Nat
  copyFrom : Nat
  rotate : Nat
  translate : Translation
  transpose : Bool
  requestedTransform : TransformRecord
  appliedTransform : TransformRecord
deriving DecidableEq, Repr

/-- The maximum row width of a grid (the `width` loop of
`NormalizeGrid`). -/
def maxWidth (g : Grid) : Nat :=
  g.foldr (fun row acc => max row.length acc) 0

/-- One padded row of `NormalizeGrid`: `std::string padded(width, fill)`
overwritten from the row's characters. -/
def padRow (w : Nat) (fill : Char) (row : List Char) : List Char :=
  row ++ List.replicate (w - row.length) fill

/-- Embeds `NormalizeGrid` (RUL0.cpp): pad every row to the maximum
width with the fill glyph. -/
def normalizeGrid (g : Grid) (fill : Char) : Grid :=
  if g = [] then [] else g.map (padRow (maxWidth g) fill)

/-- Embeds `RotateGrid90Clockwise`:
`rotated[x][height-1-y] = normalized[y][x]`, i.e. the entry of the
rotated grid at `(x, j)` is `normalized[height-1-j][x]`. -/
def rotateGrid90Clockwise (g : Grid) (fill : Char) : Grid :=
  let n := normalizeGrid g fill
  if n = [] then n
  else
    let height := n.length
    let width := (n.headD []).length
    (List.range width).map (fun x =>
      (List.range height).map (fun j => (n.getD (height - 1 - j) []).getD x fill))

/-- The rotation loop of `RotateGrid`. -/
def rotateNTimes (fill : Char) : Nat → Grid → Grid
  | 0, g => g
  | n + 1, g => rotateNTimes fill n (rotateGrid90Clockwise g fill)

/-- Embeds `RotateGrid`: normalize, then apply `times % 4` quarter
turns (`((times % 4) + 4) % 4` in the C++, whose argument is 0..3). -/
def rotateGrid (g : Grid) (times : Nat) (fill : Char) : Grid :=
  rotateNTimes fill (times % 4) (normalizeGrid g fill)

/-- Embeds `RotateEdgeFlags`:
`(flags << (rot & 3) * 8) | (flags >> (32 - (rot & 3) * 8))` in
`uint32_t` (the left shift wraps modulo `2^32`; `ApplyRotation` only
calls it with rotation 1..3, so the C++'s out-of-range right shift for
rotation ≡ 0 is never exercised). -/
def rotateEdgeFlags (flags : Nat) (rotation : Nat) : Nat :=
  let shiftBits := (rotation &&& 3) * 8
  ((flags <<< shiftBits) % 4294967296) ||| (flags >>> (32 - shiftBits))

/-- The x component of `RotatePoint`. -/
def rotPointX (x y : Int) (rotation : Nat) : Int :=
  match rotation &&& 3 with
  | 1 => -y
  | 2 => -x
  | 3 => y
  | _ => x

/-- The y component of `RotatePoint`. -/
def rotPointY (x y : Int) (rotation : Nat) : Int :=
  match rotation &&& 3 with
  | 1 => x
  | 2 => -y
  | 3 => -x
  | _ => y

/-- The entry of a grid at row `i`, column `j` (`getD`-based, row
default `[]`, cell default `fill`). -/
def entry (g : Grid) (i j : Nat) (fill : Char) : Char :=
  (g.getD i []).getD j fill

/-- The action of `ApplyRotation` (with rotation `ROT_1`) on one grid:
rotate if non-empty, leave alone otherwise. -/
def gridRotStep (g : Grid) (fill : Char) : Grid :=
  if g = [] then g else rotateGrid g 1 fill

/-- The action of `ApplyRotation` (rotation `ROT_1`) on the preview
effect. -/
def effectRotStep (e : PreviewEffect) : PreviewEffect :=
  if e.initialized then
    { e with x := rotPointX e.x e.y 1, y := rotPointY e.x e.y 1,
             rotation := (e.rotation + 1 * 90).tmod 360 }
  else e

/-- The action of `ApplyRotation` (rotation `ROT_1`) on `oneWayDir`. -/
def oneWayRotStep (d : Nat) : Nat :=
  if d ≠ 8 ∧ d < 8 then (d + 1 * 2) % 8 else d

/-- The action of `ApplyRotation` (rotation `ROT_1`) on one network
check. -/
def networkRotStep (nc : NetworkCheck) : NetworkCheck :=
  { nc with ruleFlagByte := rotateEdgeFlags nc.ruleFlagByte 1,
            hexMask := rotateEdgeFlags nc.hexMask 1 }

/-- The action of `ApplyRotation` (rotation `ROT_1`) on one check
type. -/
def checkTypeRotStep (ct : CheckType) : CheckType :=
  { ct with networks := ct.networks.map networkRotStep }


/-- Embeds `CopyPuzzlePiece` (RUL0.cpp): field-by-field copy of
`effect`, the grids, `checkTypes`, the bases, `replacementIntersection`,
`costs`, `convertQueryId`, `autoPlace`, the offsets and `oneWayDir`;
everything else keeps the destination's value. -/
def copyPuzzlePiece (source dest : PuzzlePiece) : PuzzlePiece :=
  { dest with
    effect := source.effect,
    cellLayout := source.cellLayout,
    checkTypes := source.checkTypes,
    consLayout := source.consLayout,
    autoPathBase := source.autoPathBase,
    autoTileBase := source.autoTileBase,
    replacementIntersection := source.replacementIntersection,
    costs := source.costs,
    convertQueryId := source.convertQueryId,
    autoPlace := source.autoPlace,
    handleOffset := source.handleOffset,
    stepOffsets := source.stepOffsets,
    oneWayDir := source.oneWayDir }

/-- Embeds `ApplyRotation` (RUL0.cpp) for a `Rotation` enum value
(0..3, `NONE` = 4); `fill` models the defaulted `kEmptyLayoutCell`
argument of the grid helpers (its glyph value is not declared in the
provided sources).  The preview-effect rotation update
`(rotation + times * 90) % 360` is C++ `int` truncating modulus
(`Int.tmod`). -/
def applyRotation (p : PuzzlePiece) (rotation : Nat) (fill : Char) : PuzzlePiece :=
  if rotation = 4 ∨ rotation = 0 then p
  else
    let times := rotation
    { p with
      cellLayout :=
        if p.cellLayout = [] then p.cellLayout else rotateGrid p.cellLayout times fill,
      consLayout :=
        if p.consLayout = [] then p.consLayout else rotateGrid p.consLayout times fill,
      effect :=
        if p.effect.initialized then
          { p.effect with
            x := rotPointX p.effect.x p.effect.y times,
            y := rotPointY p.effect.x p.effect.y times,
            rotation := (p.effect.rotation + times * 90).tmod 360 }
        else p.effect,
      oneWayDir :=
        if p.oneWayDir ≠ 8 ∧ p.oneWayDir < 8 then (p.oneWayDir + times * 2) % 8
        else p.oneWayDir,
      checkTypes := p.checkTypes.map (fun ct =>
        { ct with networks := ct.networks.map (fun nc =>
            { nc with
              ruleFlagByte := rotateEdgeFlags nc.ruleFlagByte times,
              hexMask := rotateEdgeFlags nc.hexMask times }) }),
      rotate := 4 }

/-- Four applications of the quarter-turn rotation step
(`ApplyRotation` with `ROT_1`). -/
def rotateFour (p : PuzzlePiece) (fill : Char) : PuzzlePiece :=
  applyRotation (applyRotation (applyRotation (applyRotation p 1 fill) 1 fill) 1 fill) 1 fill

/-- A puzzle piece with every field inert, used to build concrete
pieces by record update. -/
def basePiece : PuzzlePiece :=
  { id := 0,
    effect := { initialized := false, x := 0, y := 0, rotation := 0, flip := 0,
                instanceId := 0xFFFFFFFF, name := "" },
    cellLayout := [], checkTypes := [], consLayout := [],
    autoPathBase := 0xFFFFFFFF, autoTileBase := 0xFFFFFFFF,
    replacementIntersection := { initialized := false, rotation := 4, flip := 0 },
    placeQueryId := 0xFFFFFFFF, costs := 0xFFFFFFFF, convertQueryId := 0xFFFFFFFF,
    autoPlace := false,
    handleOffset := { initialized := false, deltaStraight := 0, deltaSide := 0 },
    stepOffsets := { initialized := false, dragStartThreshold := 0, dragCompletionOffset := 0 },
    oneWayDir := 8, copyFrom := 0, rotate := 4,
    translate := { initialized := false, x := 0, z := 0 },
    transpose := false,
    requestedTransform := { copyFrom := 0, rotate := 4, transpose := false,
                            translate := { initialized := false, x := 0, z := 0 } },
    appliedTransform := { copyFrom := 0, rotate := 4, transpose := false,
                          translate := { initialized := false, x := 0, z := 0 } } }

/-- A piece whose cell grid is a single empty row. -/
def pieceEmptyRow : PuzzlePiece := { basePiece with id := 1, cellLayout := [[]] }

/-- Concrete source and destination pieces for the copy-from step. -/
def srcPiece : PuzzlePiece :=
  { basePiece with
    id := 1, rotate := 0, costs := 5, oneWayDir := 2,
    cellLayout := [['A', 'B'], ['C', 'D']] }

def dstPiece : PuzzlePiece :=
  { basePiece with
    id := 2, copyFrom := 1, rotate := 2, transpose := true,
    translate := { initialized := true, x := 1, z := 1 }, placeQueryId := 7 }

/-- A concrete piece exercising every rotated component. -/
def rotWitnessPiece : PuzzlePiece :=
  { basePiece with
    id := 3,
    cellLayout := [['A', 'B'], ['C', 'D']],
    consLayout := [['a'], ['b', 'c']],
    effect := { initialized := true, x := 2, y := -1, rotation := 123, flip := 0,
                instanceId := 5, name := "fx" },
    oneWayDir := 3,
    checkTypes := [{ initialized := true, symbol := 'A',
                     networks := [{ networkType := NetworkType.ROAD,
                                    ruleFlagByte := 0x12345678, hexMask := 0xFF00FF00,
                                    optional := false, check := true }] }] }

end RUL0

namespace Exemplar

/-- C `isspace` over the ASCII whitespace set, as used through
`std::isspace` by the text-exemplar cursor helpers. -/
def isSpaceC (c : Char) : Bool :=
  c = ' ' || c = '\t' || c = '\n' || c = '\x0b' || c = '\x0c' || c = '\r'

/-- C `isdigit`. -/
def isDigitC (c : Char) : Bool := '0' ≤ c && c ≤ '9'

/-- C `isxdigit`. -/
def isXDigitC (c : Char) : Bool :=
  ('0' ≤ c && c ≤ '9') || ('a' ≤ c && c ≤ 'f') || ('A' ≤ c && c ≤ 'F')

/-- The numeric value of one hex digit. -/
def hexDigitVal (c : Char) : Nat :=
  if '0' ≤ c ∧ c ≤ '9' then c.toNat - 48
  else if 'a' ≤ c ∧ c ≤ 'f' then c.toNat - 87
  else if 'A' ≤ c ∧ c ≤ 'F' then c.toNat - 55
  else 0

/-- The value of a string of hex digits (`std::from_chars` base 16). -/
def hexListVal (ds : List Char) : Nat :=
  ds.foldl (fun acc c => acc * 16 + hexDigitVal c) 0

/-- The value of a string of decimal digits (`std::from_chars` base 10). -/
def decListVal (ds : List Char) : Nat :=
  ds.foldl (fun acc c => acc * 10 + (c.toNat - 48)) 0

/-- A `while (pos < end && p(s[pos])) ++pos` cursor scan.  `fuel` is
called with at least `s.length` and cannot run out. -/
def scanWhileAux (p : Char → Bool) (s : List Char) : Nat → Nat → Nat
  | 0, pos => pos
  | fuel + 1, pos =>
    if pos < s.length ∧ p (s.getD pos ' ') = true then scanWhileAux p s fuel (pos + 1)
    else pos

/-- Embeds `SkipWhitespace` (ExemplarReader.cpp): the cursor position
after skipping whitespace. -/
def skipWs (s : List Char) (pos : Nat) : Nat :=
  scanWhileAux isSpaceC s s.length pos

/-- The `static_cast<int64_t>(value)` of the `signedBits == 64` branch:
two's-complement reinterpretation of a `uint64_t`. -/
def toInt64 (v : Nat) : Int :=
  if 9223372036854775808 ≤ v then (v : Int) - 18446744073709551616 else (v : Int)

/-- The hex branch of `ParseIntegerLiteral`, after the `0x` prefix has
been consumed at `pos` (`negative` records a leading `-`). -/
def parseHexTail (s : List Char) (pos : Nat) (negative interpretHexAsSigned : Bool)
    (signedBits : Nat) : Except String (Int × Nat) :=
  let digEnd := scanWhileAux isXDigitC s s.length pos
  if digEnd = pos then Except.error "Invalid hexadecimal literal"
  else
    let v := hexListVal ((s.drop pos).take (digEnd - pos))
    if 18446744073709551616 ≤ v then Except.error "Failed to parse hexadecimal literal"
    else if interpretHexAsSigned then
      if signedBits < 1 ∨ 64 < signedBits then Except.error "Invalid signed bit width"
      else if signedBits < 64 then
        if 2 ^ signedBits ≤ v then Except.error "Hex literal exceeds signed bit range"
        else
          let signedValue : Int :=
            if 2 ^ (signedBits - 1) ≤ v then (v : Int) - (2 ^ signedBits : Nat)
            else (v : Int)
          Except.ok ((if negative then -signedValue else signedValue), digEnd)
      else
        Except.ok ((if negative then -(toInt64 v) else toInt64 v), digEnd)
    else
      if 9223372036854775807 < v then Except.error "Hex literal out of int64 range"
      else Except.ok ((if negative then -(v : Int) else (v : Int)), digEnd)

/-- The decimal branch of `ParseIntegerLiteral`, starting at `pos`. -/
def parseDecTail (s : List Char) (pos : Nat) (negative : Bool) :
    Except String (Int × Nat) :=
  let digEnd := scanWhileAux isDigitC s s.length pos
  if digEnd = pos then Except.error "Invalid decimal literal"
  else
    let v := decListVal ((s.drop pos).take (digEnd - pos))
    if 9223372036854775807 < v then Except.error "Failed to parse decimal literal"
    else Except.ok ((if negative then -(v : Int) else (v : Int)), digEnd)

/-- Embeds `ParseIntegerLiteral` (ExemplarReader.cpp): skip whitespace,
consume an optional `-`, then the hex (`0x…`) or decimal branch; with
`interpretHexAsSigned` a hex literal is reinterpreted as a
two's-complement value of `signedBits` bits, rejecting values at or
above `2^signedBits`. -/
def parseIntegerLiteral (s : List Char) (pos0 : Nat)
    (interpretHexAsSigned : Bool) (signedBits : Nat) : Except String (Int × Nat) :=
  let pos := skipWs s pos0
  if s.length ≤ pos then Except.error "Unexpected end of buffer while reading integer literal"
  else
    let negative := s.getD pos ' ' = '-'
    let pos := if negative then pos + 1 else pos
    if negative ∧ s.length ≤ pos then Except.error "Dangling minus in integer literal"
    else if pos + 2 ≤ s.length ∧ s.getD pos ' ' = '0' ∧
        (s.getD (pos + 1) ' ' = 'x' ∨ s.getD (pos + 1) ' ' = 'X') then
      parseHexTail s (pos + 2) negative interpretHexAsSigned signedBits
    else
      parseDecTail s pos negative

/-- Embeds the `SInt32` case of `ParseValueVariant`:
`ParseIntegerLiteral(cursor, true, 32)` followed by the `int32_t` range
check. -/
def parseSInt32Value (s : List Char) (pos : Nat) : Except String (Int × Nat) :=
  match parseIntegerLiteral s pos true 32 with
  | Except.error e => Except.error e
  | Except.ok (v, pos') =>
    if v < -2147483648 ∨ 2147483647 < v then Except.error "SInt32 value out of range"
    else Except.ok (v, pos')

/-- The scan of `ConsumeOptionalNameKey`: find a `:` before any `,`,
`}` or `"`; `none` when the cursor should stay put. -/
def consumeNameAux (s : List Char) (start : Nat) : Nat → Nat → Option Nat
  | 0, _ => Option.none
  | fuel + 1, scan =>
    if s.length ≤ scan then Option.none
    else
      let c := s.getD scan ' '
      if c = ':' then
        if scan = start then Option.none else some (scan + 1)
      else if c = ',' ∨ c = '}' ∨ c = '"' then Option.none
      else consumeNameAux s start fuel (scan + 1)

/-- Embeds `ConsumeOptionalNameKey` (ExemplarReader.cpp). -/
def consumeOptionalNameKey (s : List Char) (pos0 : Nat) : Nat :=
  let start := skipWs s pos0
  match consumeNameAux s start (s.length + 1) start with
  | some p => skipWs s p
  | Option.none => start

/-- The element loop of `ParseValueArray` for an `SInt32` property.
`fuel` is called with `s.length + 1`; every iteration consumes input. -/
def pvaLoop (s : List Char) : Nat → Nat → List Int → Except String (List Int × Nat)
  | 0, _, _ => Except.error "value list fuel exhausted"
  | fuel + 1, pos0, acc =>
    let pos := skipWs s pos0
    if s.length ≤ pos then Except.error "Unexpected end of buffer while reading property list"
    else if s.getD pos ' ' = '}' then Except.ok (acc.reverse, pos + 1)
    else
      let pos := consumeOptionalNameKey s pos
      let pos := skipWs s pos
      match parseSInt32Value s pos with
      | Except.error e => Except.error e
      | Except.ok (v, pos1) =>
        let pos := skipWs s pos1
        if s.length ≤ pos then Except.error "Unexpected end of buffer while reading property list"
        else if s.getD pos ' ' = ',' then pvaLoop s fuel (pos + 1) (v :: acc)
        else if s.getD pos ' ' = '}' then Except.ok ((v :: acc).reverse, pos + 1)
        else Except.error "Expected delimiter in property list"

/-- Embeds `ParseValueArray` (ExemplarReader.cpp) for an `SInt32`
property: expect `{`, then the element loop. -/
def parseValueArraySInt32 (s : List Char) (pos0 : Nat) : Except String (List Int × Nat) :=
  let pos := skipWs s pos0
  if pos < s.length ∧ s.getD pos ' ' = '{' then pvaLoop s (s.length + 1) (pos + 1) []
  else Except.error "Expected open brace while parsing property value list"

end Exemplar

namespace QFS



theorem offsetCopyRun_length (offset : Nat) :
    ∀ (len : Nat) (out : List Nat),
      (offsetCopyRun offset len out).length = out.length + len := by
  intro len
  induction len with
  | zero => intro out; simp [offsetCopyRun]
  | succ n ih =>
      intro out
      simp only [offsetCopyRun]
      rw [ih]
      simp
      omega

theorem offsetCopy_ok_length {out : List Nat} {offset len : Nat} {res : List Nat}
    (h : offsetCopy out offset len = Except.ok res) :
    res.length = out.length + len := by
  unfold offsetCopy at h
  split at h
  · exact nomatch h
  · cases h
    exact offsetCopyRun_length offset len out

theorem finalCheck_ok_length {outputSize : Nat} {out res : List Nat}
    (h : finalCheck outputSize out = Except.ok res) :
    res.length = outputSize := by
  unfold finalCheck at h
  split at h
  · cases h; assumption
  · exact nomatch h

/-- If one loop iteration stops with a successful result, that result
has the declared output length. -/
theorem decompressStep_done_ok_length {input : List Nat} {outputSize inPos : Nat}
    {out res : List Nat}
    (h : decompressStep input outputSize inPos out = StepResult.done (Except.ok res)) :
    res.length = outputSize := by
  simp only [decompressStep] at h
  repeat' split at h
  all_goals try exact StepResult.noConfusion h
  all_goals rw [StepResult.done.injEq] at h
  all_goals try exact Except.noConfusion h
  all_goals exact finalCheck_ok_length h

/-- Whenever the decompression loop succeeds, the produced buffer has
exactly the declared output length (the final `outPos != outputSize`
check of `DecompressInternal`). -/
theorem decompressLoop_ok_length (input : List Nat) (outputSize : Nat) :
    ∀ (fuel inPos : Nat) (out res : List Nat),
      decompressLoop input outputSize fuel inPos out = Except.ok res →
      res.length = outputSize := by
  intro fuel
  induction fuel with
  | zero => intro inPos out res h; exact nomatch h
  | succ fuel ih =>
      intro inPos out res h
      simp only [decompressLoop] at h
      split at h
      · split at h
        · rename_i r heq
          subst h
          exact decompressStep_done_ok_length heq
        · exact ih _ _ _ h
      · exact finalCheck_ok_length h

theorem isQFSCompressed_spec {input : List Nat} (h : isQFSCompressed input = true) :
    5 ≤ input.length ∧ magicOf input = MAGIC_COMPRESSED := by
  unfold isQFSCompressed at h
  simpa using h

/-- C1: for every input accepted by `IsQFSCompressed` (length ≥ 5 and
magic `0x10FB`), `Decompress` either succeeds with output length equal
to the big-endian 24-bit uncompressed length in bytes 2..4, or returns
an error (all overrun / bad-offset / wrong-final-length conditions are
error returns of the embedded decoder). -/
theorem qfs_decompress_size_or_error (input : List Nat)
    (h : isQFSCompressed input = true) :
    (∃ out, decompress input = Except.ok out ∧ out.length = read24BE input) ∨
    (∃ e, decompress input = Except.error e) := by
  obtain ⟨h5, hm⟩ := isQFSCompressed_spec h
  unfold decompress
  rw [if_neg (by omega), if_neg (by simp [hm])]
  by_cases h0 : read24BE input = 0
  · rw [if_pos h0]
    exact Or.inl ⟨[], rfl, by simp [h0]⟩
  · rw [if_neg h0]
    cases hres : decompressLoop input (read24BE input) (input.length + 1)
        (if input.getD 0 0 &&& 0x01 ≠ 0 then 8 else 5) [] with
    | ok out => exact Or.inl ⟨out, rfl, decompressLoop_ok_length _ _ _ _ _ _ hres⟩
    | error e => exact Or.inr ⟨e, rfl⟩

/-- Witness for C1 at the concrete `sc4Qfs` stream. -/
theorem qfs_decompress_size_or_error_witness :
    (∃ out, decompress sc4Qfs = Except.ok out ∧ out.length = read24BE sc4Qfs) ∨
    (∃ e, decompress sc4Qfs = Except.error e) :=
  qfs_decompress_size_or_error sc4Qfs (by decide)

/-- C9: whenever `Decompress` passes the size and magic checks but the
stream decode then fails, the caller's output vector is cleared: the
partially written buffer is never exposed. -/
theorem qfs_error_clears_output (input out0 : List Nat) (e : String)
    (h : isQFSCompressed input = true)
    (herr : (decompressRun input out0).1 = Except.error e) :
    (decompressRun input out0).2 = [] := by
  obtain ⟨h5, hm⟩ := isQFSCompressed_spec h
  unfold decompressRun at herr ⊢
  rw [if_neg (by omega), if_neg (by simp [hm])] at herr ⊢
  by_cases h0 : read24BE input = 0
  · rw [if_pos h0] at herr
    exact nomatch herr
  · rw [if_neg h0] at herr ⊢
    cases hres : decompressLoop input (read24BE input) (input.length + 1)
        (if input.getD 0 0 &&& 0x01 ≠ 0 then 8 else 5) [] with
    | ok out => rw [hres] at herr; exact nomatch herr
    | error e' => rfl

/-- Witness for C9: a well-formed header whose body writes 0 of the
declared 1 bytes; the previous output contents `[7, 7]` are cleared. -/
theorem qfs_error_clears_output_witness :
    (decompressRun [0x10, 0xFB, 0x00, 0x00, 0x01] [7, 7]).2 = [] :=
  qfs_error_clears_output [0x10, 0xFB, 0x00, 0x00, 0x01] [7, 7]
    "QFS decompression wrote wrong number of bytes" (by decide) (by rfl)
end QFS

namespace QFS

theorem maskShift (n : Nat) : (n >>> 2) &&& 0x07 = (n &&& 0x1C) >>> 2 := by
  apply Nat.eq_of_testBit_eq
  intro i
  simp only [Nat.testBit_and, Nat.testBit_shiftRight]
  rcases Nat.lt_or_ge i 3 with h | h
  · interval_cases i <;> congr 1
  · have h7 : Nat.testBit 7 i = false :=
      Nat.testBit_eq_false_of_lt (lt_of_lt_of_le (by norm_num)
        (Nat.pow_le_pow_right (by norm_num) h))
    have h28 : Nat.testBit 28 (2 + i) = false :=
      Nat.testBit_eq_false_of_lt (lt_of_lt_of_le (by norm_num)
        (Nat.pow_le_pow_right (by norm_num) (by omega : 5 ≤ 2 + i)))
    simp [h7, h28]

/-- C2: each iteration of the decoder's loop decodes its control record
exactly as the spec's opcode table prescribes — `specStep` decodes the
record through `recordSpec` (the table with the spec's own formulas) and
then copies the literal first and the back-reference second, and it
agrees with the embedded code step on every state. -/
theorem qfs_step_decodes_spec_table (input : List Nat) (outputSize inPos : Nat)
    (out : List Nat) (h : inPos < input.length) :
    decompressStep input outputSize inPos out = specStep input outputSize inPos out := by
  simp only [decompressStep, specStep, recordSpec, blockName, truncMsg]
  by_cases h1 : input.getD inPos 0 &&& 0xFF ≤ 0x7F
  · simp only [if_pos h1, maskShift,
      show (input.length < inPos + 1 + 1) ↔ (input.length ≤ inPos + 1) from by omega,
      show inPos + 1 + 1 = inPos + 2 from by omega,
      show ("QFS literal overruns input (" ++ "short block" ++ ")" : String) =
        "QFS literal overruns input (short block)" from rfl,
      show ("QFS literal overruns output (" ++ "short block" ++ ")" : String) =
        "QFS literal overruns output (short block)" from rfl,
      show ("QFS copy overruns output (" ++ "short block" ++ ")" : String) =
        "QFS copy overruns output (short block)" from rfl]
    rfl
  · by_cases h2 : input.getD inPos 0 &&& 0xFF ≤ 0xBF
    · simp only [if_neg h1, if_pos h2,
        show (input.length < inPos + 1 + 2) ↔ (input.length ≤ inPos + 2) from by omega,
        show inPos + 1 + 2 = inPos + 3 from by omega,
        show ("QFS literal overruns input (" ++ "mid block" ++ ")" : String) =
          "QFS literal overruns input (mid block)" from rfl,
        show ("QFS literal overruns output (" ++ "mid block" ++ ")" : String) =
          "QFS literal overruns output (mid block)" from rfl,
        show ("QFS copy overruns output (" ++ "mid block" ++ ")" : String) =
          "QFS copy overruns output (mid block)" from rfl]
      rfl
    · by_cases h3 : input.getD inPos 0 &&& 0xFF ≤ 0xDF
      · simp only [if_neg h1, if_neg h2, if_pos h3,
          show (input.length < inPos + 1 + 3) ↔ (input.length ≤ inPos + 3) from by omega,
          show inPos + 1 + 3 = inPos + 4 from by omega,
          show ("QFS literal overruns input (" ++ "long block" ++ ")" : String) =
            "QFS literal overruns input (long block)" from rfl,
          show ("QFS literal overruns output (" ++ "long block" ++ ")" : String) =
            "QFS literal overruns output (long block)" from rfl,
          show ("QFS copy overruns output (" ++ "long block" ++ ")" : String) =
            "QFS copy overruns output (long block)" from rfl]
        rfl
      · by_cases h4 : input.getD inPos 0 &&& 0xFF ≤ 0xFB
        · simp only [if_neg h1, if_neg h2, if_neg h3, if_pos h4,
            show (input.length < inPos + 1 + 0) ↔ False from by simp; omega,
            show inPos + 1 + 0 = inPos + 1 from by omega,
            show ("QFS literal overruns input (" ++ "raw block" ++ ")" : String) =
              "QFS literal overruns input (raw block)" from rfl,
            show ("QFS literal overruns output (" ++ "raw block" ++ ")" : String) =
              "QFS literal overruns output (raw block)" from rfl,
            if_false]
          rfl
        · simp only [if_neg h1, if_neg h2, if_neg h3, if_neg h4,
            show (input.length < inPos + 1 + 0) ↔ False from by simp; omega,
            show inPos + 1 + 0 = inPos + 1 from by omega,
            show ("QFS literal overruns input (" ++ "terminator block" ++ ")" : String) =
              "QFS literal overruns input (terminator block)" from rfl,
            show ("QFS literal overruns output (" ++ "terminator block" ++ ")" : String) =
              "QFS literal overruns output (terminator block)" from rfl,
            if_false]
          rfl

/-- Witness for C2 at the `0xE0` record of the `sc4Qfs` stream. -/
theorem qfs_step_decodes_spec_table_witness :
    decompressStep sc4Qfs 4 5 [] = specStep sc4Qfs 4 5 [] :=
  qfs_step_decodes_spec_table sc4Qfs 4 5 [] (by decide)

end QFS

namespace DBPF

/-- C8: `FindEntries(mask)` returns exactly the index entries whose keys
match the mask, whichever bucket (type / group / instance / full scan)
the lookup walks. -/
theorem findEntries_eq_filter (st : ReaderState) (mask : TgiMask) :
    findEntries st mask = st.index.filter (fun e => mask.Matches e.tgi) := by
  unfold findEntries
  cases ht : mask.type with
  | some t =>
      dsimp only
      rw [List.filter_filter]
      apply List.filter_congr
      intro e _
      cases hm : mask.Matches e.tgi
      · simp
      · have htype : (e.tgi.type == t) = true := by
          unfold TgiMask.Matches at hm
          rw [ht] at hm
          simp only [Bool.and_eq_true, beq_iff_eq] at hm
          simp [hm.1.1]
        simp [htype]
  | none =>
      cases hg : mask.group with
      | some g =>
          dsimp only
          rw [List.filter_filter]
          apply List.filter_congr
          intro e _
          cases hm : mask.Matches e.tgi
          · simp
          · have hgrp : (e.tgi.group == g) = true := by
              unfold TgiMask.Matches at hm
              rw [hg] at hm
              simp only [Bool.and_eq_true, beq_iff_eq] at hm
              simp [hm.1.2]
            simp [hgrp]
      | none =>
          cases hi : mask.inst with
          | some i =>
              dsimp only
              rw [List.filter_filter]
              apply List.filter_congr
              intro e _
              cases hm : mask.Matches e.tgi
              · simp
              · have hins : (e.tgi.inst == i) = true := by
                  unfold TgiMask.Matches at hm
                  rw [hi] at hm
                  simp only [Bool.and_eq_true, beq_iff_eq] at hm
                  simp [hm.2]
                simp [hins]
          | none => dsimp only

end DBPF

namespace DBPF

set_option maxRecDepth 200000

/-- C3 counterexample: with the claim's chunk header
`04 00 00 00 04 00 00 00 00 00 10` the leading size field is 4, so
`ReadEntry` truncates the body to the first 4 bytes of the QFS stream
and returns them raw (`10 FB 00 00`), not `"SC4!"`. -/
theorem readEntry_chunkClaim_not_sc4 :
    readEntryByTgi (loadBuffer initialReader archChunkClaim).2
        ⟨0x11111111, 0x22222222, 0x33333333⟩ = some [0x10, 0xFB, 0x00, 0x00] ∧
    some [0x10, 0xFB, 0x00, 0x00] ≠ some ([83, 67, 52, 33] : List Nat) :=
  ⟨by rfl, by decide⟩

/-- C3 amended: with the chunk header `0C 00 00 00 0C 00 00 00 00 00 10`
(size fields covering the whole 12-byte QFS stream), `ReadEntry` strips
the chunk header, decompresses, and returns exactly `"SC4!"`. -/
theorem readEntry_chunkGood_sc4 :
    readEntryByTgi (loadBuffer initialReader archChunkGood).2
        ⟨0x11111111, 0x22222222, 0x33333333⟩ = some [83, 67, 52, 33] := by
  rfl

/-- C4 counterexample: an archive whose directory entry lists the key
`(9,9,9)` with no matching index entry still loads successfully. -/
theorem dir_unmatched_key_still_loads :
    (loadBuffer initialReader archDirUnmatched).1 = true ∧
    findEntry (loadBuffer initialReader archDirUnmatched).2 kDirectoryTgi =
      some ⟨kDirectoryTgi, 100, 16, Option.none⟩ ∧
    loadEntryData (loadBuffer initialReader archDirUnmatched).2
        ⟨kDirectoryTgi, 100, 16, Option.none⟩ =
      some (u32le 9 ++ u32le 9 ++ u32le 9 ++ u32le 4) ∧
    findEntry (loadBuffer initialReader archDirUnmatched).2 ⟨9, 9, 9⟩ = Option.none :=
  ⟨by decide, by rfl, by rfl, by rfl⟩

theorem setDecompressedSize_id (t : Tgi) (n : Nat) :
    ∀ (idx : List IndexEntry), (∀ e ∈ idx, e.tgi ≠ t) →
      setDecompressedSize idx t n = idx := by
  intro idx
  induction idx with
  | nil => intro _; rfl
  | cons e rest ih =>
      intro h
      unfold setDecompressedSize
      rw [if_neg (h e (List.mem_cons_self e rest))]
      rw [ih (fun e' he' => h e' (List.mem_cons_of_mem e he'))]

/-- C4 amended: directory records whose keys have no matching index
entry are silently skipped — if none of the listed keys occurs in the
index, the metadata walk leaves the index unchanged (and, per the
counterexample, loading succeeds regardless). -/
theorem applyDirRecords_unmatched_id :
    ∀ (fuel : Nat) (payload : List Nat) (idx : List IndexEntry),
      (∀ t ∈ dirRecordKeys payload fuel, ∀ e ∈ idx, e.tgi ≠ t) →
      applyDirRecordsAux idx payload fuel = idx := by
  intro fuel
  induction fuel with
  | zero => intro payload idx _; rfl
  | succ fuel ih =>
      intro payload idx h
      simp only [applyDirRecordsAux]
      split
      · rfl
      · rename_i hlen
        have hkeys : dirRecordKeys payload (fuel + 1) =
            ⟨readUInt32LE payload 0, readUInt32LE payload 4, readUInt32LE payload 8⟩ ::
              dirRecordKeys (payload.drop 16) fuel := by
          simp only [dirRecordKeys]
          rw [if_neg hlen]
        have hhead : ∀ e ∈ idx,
            e.tgi ≠ (⟨readUInt32LE payload 0, readUInt32LE payload 4,
              readUInt32LE payload 8⟩ : Tgi) := by
          intro e he
          exact h _ (hkeys ▸ List.mem_cons_self _ _) e he
        rw [setDecompressedSize_id _ _ _ hhead]
        apply ih
        intro t ht e he
        exact h t (hkeys ▸ List.mem_cons_of_mem _ ht) e he

/-- Witness for the amended C4 at a concrete directory payload listing
only the unmatched key `(9,9,9)`. -/
theorem applyDirRecords_unmatched_id_witness :
    applyDirRecordsAux [⟨⟨1, 2, 3⟩, 96, 4, Option.none⟩]
        (u32le 9 ++ u32le 9 ++ u32le 9 ++ u32le 4) 17 =
      [⟨⟨1, 2, 3⟩, 96, 4, Option.none⟩] :=
  applyDirRecords_unmatched_id 17 (u32le 9 ++ u32le 9 ++ u32le 9 ++ u32le 4)
    [⟨⟨1, 2, 3⟩, 96, 4, Option.none⟩] (by decide)

/-- C10 counterexample: `LoadBuffer` on a too-small buffer returns
`false` before touching any state, so a previously loaded reader keeps
its index and data: `FindEntry` still finds the old entry and
`ReadEntryData` still succeeds. -/
theorem loadBuffer_short_keeps_state :
    (loadBuffer loadedTestReader []).1 = false ∧
    findEntry (loadBuffer loadedTestReader []).2 ⟨1, 2, 3⟩ =
      some ⟨⟨1, 2, 3⟩, 96, 4, Option.none⟩ ∧
    readEntryData (loadBuffer loadedTestReader []).2 ⟨⟨1, 2, 3⟩, 96, 4, Option.none⟩ =
      some [84, 69, 83, 84] :=
  ⟨by decide, by rfl, by rfl⟩

/-- C10 amended: when `LoadBuffer` rejects a buffer of at least header
size, the data source is reset and the file buffer cleared, so every
subsequent `ReadEntryData` fails (the parsed index, however, may remain
populated when only the directory-metadata step failed, and a too-small
buffer leaves the whole previous state untouched). -/
theorem loadBuffer_failure_clears_source (st0 : ReaderState) (data : List Nat)
    (hlen : kHeaderSize ≤ data.length)
    (hfail : (loadBuffer st0 data).1 = false) :
    (loadBuffer st0 data).2.dataSource = DataSource.kNone ∧
    (loadBuffer st0 data).2.fileBuffer = [] ∧
    ∀ e, readEntryData (loadBuffer st0 data).2 e = Option.none := by
  unfold loadBuffer at hfail ⊢
  rw [if_neg (by unfold kHeaderSize at hlen ⊢; omega)] at hfail ⊢
  cases hp : parseBuffer { st0 with fileBuffer := data, dataSource := DataSource.kBuffer } with
  | mk ok st2 =>
    cases ok with
    | true => simp [hp] at hfail
    | false =>
        simp only [hp]
        refine ⟨trivial, trivial, ?_⟩
        intro e
        rfl

/-- Witness for the amended C10 at a 0x60-byte all-zero buffer (bad
magic). -/
theorem loadBuffer_failure_clears_source_witness :
    (loadBuffer initialReader (List.replicate 96 0)).2.dataSource = DataSource.kNone ∧
    (loadBuffer initialReader (List.replicate 96 0)).2.fileBuffer = [] ∧
    readEntryData (loadBuffer initialReader (List.replicate 96 0)).2
      ⟨⟨1, 2, 3⟩, 96, 4, Option.none⟩ = Option.none := by
  have h := loadBuffer_failure_clears_source initialReader (List.replicate 96 0)
    (by decide) (by decide)
  exact ⟨h.1, h.2.1, h.2.2 _⟩

end DBPF

namespace RUL0

theorem length_le_maxWidth (g : Grid) : ∀ row ∈ g, row.length ≤ maxWidth g := by
  induction g with
  | nil => intro row h; exact absurd h (List.not_mem_nil row)
  | cons r t ih =>
      intro row h
      rcases List.mem_cons.mp h with h | h
      · subst h; simp [maxWidth]
      · have := ih row h
        simp only [maxWidth, List.foldr_cons] at *
        omega

theorem padRow_length {w : Nat} {row : List Char} (fill : Char) (h : row.length ≤ w) :
    (padRow w fill row).length = w := by
  simp [padRow]
  omega

theorem normalizeGrid_length (g : Grid) (fill : Char) :
    (normalizeGrid g fill).length = g.length := by
  unfold normalizeGrid
  split
  · simp_all
  · simp

theorem normalizeGrid_rect (g : Grid) (fill : Char) :
    ∀ row ∈ normalizeGrid g fill, row.length = maxWidth g := by
  unfold normalizeGrid
  split
  · intro row h; exact absurd h (List.not_mem_nil row)
  · intro row h
    obtain ⟨r, hr, rfl⟩ := List.mem_map.mp h
    exact padRow_length fill (length_le_maxWidth g r hr)

theorem maxWidth_of_rect {g : Grid} {w : Nat} (hne : g ≠ [])
    (h : ∀ row ∈ g, row.length = w) : maxWidth g = w := by
  induction g with
  | nil => exact absurd rfl hne
  | cons r t ih =>
      have hr : r.length = w := h r (List.mem_cons_self r t)
      cases t with
      | nil => simp [maxWidth, hr]
      | cons r' t' =>
          have ht := ih (by simp) (fun row hrow => h row (List.mem_cons_of_mem r hrow))
          simp only [maxWidth, List.foldr_cons] at ht ⊢
          omega

theorem normalize_of_rect {g : Grid} {w : Nat} (fill : Char)
    (h : ∀ row ∈ g, row.length = w) : normalizeGrid g fill = g := by
  unfold normalizeGrid
  split
  · simp_all
  · rename_i hne
    rw [maxWidth_of_rect hne h]
    have hid : ∀ row ∈ g, padRow w fill row = row := by
      intro row hrow
      simp [padRow, h row hrow]
    calc g.map (padRow w fill) = g.map id := List.map_congr_left hid
      _ = g := List.map_id g

theorem rangeMap_getD {α : Type} (f : Nat → α) (d : α) {n x : Nat} (hx : x < n) :
    ((List.range n).map f).getD x d = f x := by
  rw [List.getD_eq_getElem _ _ (by simpa using hx)]
  simp

theorem rot90_length {g : Grid} {w : Nat} (fill : Char) (hne : g ≠ [])
    (hrect : ∀ row ∈ g, row.length = w) :
    (rotateGrid90Clockwise g fill).length = w := by
  unfold rotateGrid90Clockwise
  rw [normalize_of_rect fill hrect]
  simp only [if_neg hne]
  cases g with
  | nil => exact absurd rfl hne
  | cons r t => simp [hrect r (List.mem_cons_self r t)]

theorem rot90_rect {g : Grid} {w : Nat} (fill : Char) (hne : g ≠ [])
    (hrect : ∀ row ∈ g, row.length = w) :
    ∀ row ∈ rotateGrid90Clockwise g fill, row.length = g.length := by
  unfold rotateGrid90Clockwise
  rw [normalize_of_rect fill hrect]
  simp only [if_neg hne]
  intro row h
  obtain ⟨x, hx, rfl⟩ := List.mem_map.mp h
  simp

theorem rot90_entry {g : Grid} {w : Nat} (fill : Char) (hne : g ≠ [])
    (hrect : ∀ row ∈ g, row.length = w) {x j : Nat} (hx : x < w) (hj : j < g.length) :
    entry (rotateGrid90Clockwise g fill) x j fill = entry g (g.length - 1 - j) x fill := by
  unfold rotateGrid90Clockwise
  rw [normalize_of_rect fill hrect]
  simp only [if_neg hne]
  unfold entry
  have hw : (g.headD []).length = w := by
    cases g with
    | nil => exact absurd rfl hne
    | cons r t => exact hrect r (List.mem_cons_self r t)
  rw [hw, rangeMap_getD _ _ hx, rangeMap_getD _ _ hj]



theorem rot4_of_rect {g : Grid} {w : Nat} (fill : Char) (hne : g ≠ []) (hw : 0 < w)
    (hrect : ∀ row ∈ g, row.length = w) :
    rotateGrid90Clockwise (rotateGrid90Clockwise (rotateGrid90Clockwise
      (rotateGrid90Clockwise g fill) fill) fill) fill = g := by
  have hpos : 0 < g.length := List.length_pos.mpr hne
  set g1 := rotateGrid90Clockwise g fill with hg1
  have hg1len : g1.length = w := rot90_length fill hne hrect
  have hg1rect : ∀ row ∈ g1, row.length = g.length := rot90_rect fill hne hrect
  have hg1ne : g1 ≠ [] := by
    intro hcon
    rw [hcon] at hg1len
    simp at hg1len
    omega
  set g2 := rotateGrid90Clockwise g1 fill with hg2
  have hg2len : g2.length = g.length := by
    rw [rot90_length fill hg1ne hg1rect]
  have hg2rect : ∀ row ∈ g2, row.length = w := by
    have := rot90_rect fill hg1ne hg1rect
    rw [hg1len] at this
    exact this
  have hg2ne : g2 ≠ [] := by
    intro hcon
    rw [hcon] at hg2len
    simp at hg2len
    omega
  set g3 := rotateGrid90Clockwise g2 fill with hg3
  have hg3len : g3.length = w := rot90_length fill hg2ne hg2rect
  have hg3rect : ∀ row ∈ g3, row.length = g.length := by
    have := rot90_rect fill hg2ne hg2rect
    rw [hg2len] at this
    exact this
  have hg3ne : g3 ≠ [] := by
    intro hcon
    rw [hcon] at hg3len
    simp at hg3len
    omega
  set g4 := rotateGrid90Clockwise g3 fill with hg4
  have hg4len : g4.length = g.length := by
    rw [rot90_length fill hg3ne hg3rect]
  have hg4rect : ∀ row ∈ g4, row.length = w := by
    have := rot90_rect fill hg3ne hg3rect
    rw [hg3len] at this
    exact this
  -- entries of g4 equal entries of g
  have hentry : ∀ i j, i < g.length → j < w → entry g4 i j fill = entry g i j fill := by
    intro i j hi hj
    have e4 : entry g4 i j fill = entry g3 (g3.length - 1 - j) i fill := by
      rw [hg4]
      exact rot90_entry fill hg3ne hg3rect (by omega) (by rw [hg3len]; omega)
    have e3 : entry g3 (g3.length - 1 - j) i fill =
        entry g2 (g2.length - 1 - i) (g3.length - 1 - j) fill := by
      rw [hg3]
      exact rot90_entry fill hg2ne hg2rect (by rw [hg3len]; omega) (by rw [hg2len]; omega)
    have e2 : entry g2 (g2.length - 1 - i) (g3.length - 1 - j) fill =
        entry g1 (g1.length - 1 - (g3.length - 1 - j)) (g2.length - 1 - i) fill := by
      rw [hg2]
      exact rot90_entry fill hg1ne hg1rect (by rw [hg2len]; omega)
        (by rw [hg1len, hg3len]; omega)
    have e1 : entry g1 (g1.length - 1 - (g3.length - 1 - j)) (g2.length - 1 - i) fill =
        entry g (g.length - 1 - (g2.length - 1 - i))
          (g1.length - 1 - (g3.length - 1 - j)) fill := by
      rw [hg1]
      exact rot90_entry fill hne hrect (by rw [hg1len, hg3len]; omega)
        (by rw [hg2len]; omega)
    rw [e4, e3, e2, e1]
    have hi' : g.length - 1 - (g2.length - 1 - i) = i := by rw [hg2len]; omega
    have hj' : g1.length - 1 - (g3.length - 1 - j) = j := by rw [hg1len, hg3len]; omega
    rw [hi', hj']
  -- extensionality
  apply List.ext_getElem (by rw [hg4len])
  intro i h1 h2
  apply List.ext_getElem
  · rw [hg4rect _ (List.getElem_mem h1), hrect _ (List.getElem_mem h2)]
  · intro j hj1 hj2
    have hi : i < g.length := h2
    have hjw : j < w := by
      rw [hg4rect _ (List.getElem_mem h1)] at hj1
      have := hrect _ (List.getElem_mem h2)
      omega
    have he := hentry i j hi hjw
    unfold entry at he
    rw [List.getD_eq_getElem g4 [] h1, List.getD_eq_getElem g [] h2] at he
    rw [List.getD_eq_getElem _ fill hj1, List.getD_eq_getElem _ fill hj2] at he
    exact he


theorem gridRotStep4 (g : Grid) (fill : Char) (h : g = [] ∨ 0 < maxWidth g) :
    gridRotStep (gridRotStep (gridRotStep (gridRotStep g fill) fill) fill) fill =
      normalizeGrid g fill := by
  by_cases hg : g = []
  · subst hg
    simp [gridRotStep, normalizeGrid]
  · rcases h with h | hmw
    · exact absurd h hg
    · set n := normalizeGrid g fill with hn
      have hnrect : ∀ row ∈ n, row.length = maxWidth g := normalizeGrid_rect g fill
      have hnlen : n.length = g.length := normalizeGrid_length g fill
      have hgpos : 0 < g.length := List.length_pos.mpr hg
      have hnne : n ≠ [] := by
        intro hcon
        rw [hcon] at hnlen
        simp at hnlen
        omega
      have s1 : gridRotStep g fill = rotateGrid90Clockwise n fill := by
        unfold gridRotStep
        rw [if_neg hg]
        rfl
      set g1 := rotateGrid90Clockwise n fill with hg1def
      have hg1len : g1.length = maxWidth g := rot90_length fill hnne hnrect
      have hg1rect : ∀ row ∈ g1, row.length = n.length := rot90_rect fill hnne hnrect
      have hg1ne : g1 ≠ [] := by
        intro hcon
        rw [hcon] at hg1len
        simp at hg1len
        omega
      have s2 : gridRotStep g1 fill = rotateGrid90Clockwise g1 fill := by
        unfold gridRotStep
        rw [if_neg hg1ne]
        calc rotateGrid g1 1 fill
            = rotateGrid90Clockwise (normalizeGrid g1 fill) fill := rfl
          _ = rotateGrid90Clockwise g1 fill := by rw [normalize_of_rect fill hg1rect]
      set g2 := rotateGrid90Clockwise g1 fill with hg2def
      have hg2len : g2.length = n.length := by
        rw [rot90_length fill hg1ne hg1rect]
      have hg2rect : ∀ row ∈ g2, row.length = maxWidth g := by
        have := rot90_rect fill hg1ne hg1rect
        rw [hg1len] at this
        exact this
      have hg2ne : g2 ≠ [] := by
        intro hcon
        rw [hcon] at hg2len
        simp at hg2len
        omega
      have s3 : gridRotStep g2 fill = rotateGrid90Clockwise g2 fill := by
        unfold gridRotStep
        rw [if_neg hg2ne]
        calc rotateGrid g2 1 fill
            = rotateGrid90Clockwise (normalizeGrid g2 fill) fill := rfl
          _ = rotateGrid90Clockwise g2 fill := by rw [normalize_of_rect fill hg2rect]
      set g3 := rotateGrid90Clockwise g2 fill with hg3def
      have hg3len : g3.length = maxWidth g := rot90_length fill hg2ne hg2rect
      have hg3rect : ∀ row ∈ g3, row.length = n.length := by
        have := rot90_rect fill hg2ne hg2rect
        rw [hg2len] at this
        exact this
      have hg3ne : g3 ≠ [] := by
        intro hcon
        rw [hcon] at hg3len
        simp at hg3len
        omega
      have s4 : gridRotStep g3 fill = rotateGrid90Clockwise g3 fill := by
        unfold gridRotStep
        rw [if_neg hg3ne]
        calc rotateGrid g3 1 fill
            = rotateGrid90Clockwise (normalizeGrid g3 fill) fill := rfl
          _ = rotateGrid90Clockwise g3 fill := by rw [normalize_of_rect fill hg3rect]
      rw [s1, s2, s3, s4]
      exact rot4_of_rect fill hnne hmw hnrect


theorem rotEF_lt {f : Nat} (hf : f < 4294967296) : rotateEdgeFlags f 1 < 4294967296 := by
  unfold rotateEdgeFlags
  have h1 : ((1 &&& 3) * 8 : Nat) = 8 := by decide
  rw [h1]
  have h2 : (4294967296 : Nat) = 2 ^ 32 := by norm_num
  rw [h2]
  apply Nat.or_lt_two_pow
  · exact Nat.mod_lt _ (by norm_num)
  · rw [Nat.shiftRight_eq_div_pow]
    exact lt_of_le_of_lt (Nat.div_le_self f _) (h2 ▸ hf)

theorem rotEF_bitLow {f : Nat} (i : Nat) (hi : i < 8) :
    (rotateEdgeFlags f 1).testBit i = f.testBit (24 + i) := by
  unfold rotateEdgeFlags
  have h1 : ((1 &&& 3) * 8 : Nat) = 8 := by decide
  rw [h1]
  have h2 : (4294967296 : Nat) = 2 ^ 32 := by norm_num
  rw [h2]
  simp only [Nat.testBit_or, Nat.testBit_mod_two_pow, Nat.testBit_shiftLeft,
    Nat.testBit_shiftRight]
  have : decide (i ≥ 8) = false := by simp; omega
  simp [this]

theorem rotEF_bitHigh {f : Nat} (hf : f < 4294967296) (i : Nat) (h8 : 8 ≤ i) (h32 : i < 32) :
    (rotateEdgeFlags f 1).testBit i = f.testBit (i - 8) := by
  unfold rotateEdgeFlags
  have h1 : ((1 &&& 3) * 8 : Nat) = 8 := by decide
  rw [h1]
  have h2 : (4294967296 : Nat) = 2 ^ 32 := by norm_num
  simp only [h2] at hf ⊢
  simp only [Nat.testBit_or, Nat.testBit_mod_two_pow, Nat.testBit_shiftLeft,
    Nat.testBit_shiftRight]
  have hd1 : decide (i < 32) = true := by simp; omega
  have hd2 : decide (i ≥ 8) = true := by simp; omega
  have hhigh : f.testBit (32 - 8 + i) = false :=
    Nat.testBit_eq_false_of_lt (lt_of_lt_of_le hf (Nat.pow_le_pow_right (by norm_num) (by omega)))
  simp [hd1, hd2, hhigh]

theorem rotEF_bitOut {f : Nat} (hf : f < 4294967296) (i : Nat) (h32 : 32 ≤ i) :
    f.testBit i = false := by
  have h2 : (4294967296 : Nat) = 2 ^ 32 := by norm_num
  exact Nat.testBit_eq_false_of_lt
    (lt_of_lt_of_le (h2 ▸ hf) (Nat.pow_le_pow_right (by norm_num) h32))

theorem rotEF_four {f : Nat} (hf : f < 4294967296) :
    rotateEdgeFlags (rotateEdgeFlags (rotateEdgeFlags (rotateEdgeFlags f 1) 1) 1) 1 = f := by
  have l1 := rotEF_lt hf
  have l2 := rotEF_lt l1
  have l3 := rotEF_lt l2
  have l4 := rotEF_lt l3
  apply Nat.eq_of_testBit_eq
  intro i
  rcases Nat.lt_or_ge i 32 with h32 | h32
  · rcases Nat.lt_or_ge i 8 with h8 | h8
    · rw [rotEF_bitLow i h8,
        rotEF_bitHigh l2 (24 + i) (by omega) (by omega),
        show 24 + i - 8 = 16 + i from by omega,
        rotEF_bitHigh l1 (16 + i) (by omega) (by omega),
        show 16 + i - 8 = 8 + i from by omega,
        rotEF_bitHigh hf (8 + i) (by omega) (by omega),
        show 8 + i - 8 = i from by omega]
    · rcases Nat.lt_or_ge i 16 with h16 | h16
      · rw [rotEF_bitHigh l3 i (by omega) (by omega),
          rotEF_bitLow (i - 8) (by omega),
          show 24 + (i - 8) = 16 + i from by omega,
          rotEF_bitHigh l1 (16 + i) (by omega) (by omega),
          show 16 + i - 8 = 8 + i from by omega,
          rotEF_bitHigh hf (8 + i) (by omega) (by omega),
          show 8 + i - 8 = i from by omega]
      · rcases Nat.lt_or_ge i 24 with h24 | h24
        · rw [rotEF_bitHigh l3 i (by omega) (by omega),
            rotEF_bitHigh l2 (i - 8) (by omega) (by omega),
            show i - 8 - 8 = i - 16 from by omega,
            rotEF_bitLow (i - 16) (by omega),
            show 24 + (i - 16) = 8 + i from by omega,
            rotEF_bitHigh hf (8 + i) (by omega) (by omega),
            show 8 + i - 8 = i from by omega]
        · rw [rotEF_bitHigh l3 i (by omega) (by omega),
            rotEF_bitHigh l2 (i - 8) (by omega) (by omega),
            show i - 8 - 8 = i - 16 from by omega,
            rotEF_bitHigh l1 (i - 16) (by omega) (by omega),
            show i - 16 - 8 = i - 24 from by omega,
            rotEF_bitLow (i - 24) (by omega),
            show 24 + (i - 24) = i from by omega]
  · rw [rotEF_bitOut l4 i h32, rotEF_bitOut hf i h32]


theorem tmod_emod (a b : Int) : (a.tmod b) % b = a % b := by
  rw [Int.tmod_def, sub_eq_add_neg, ← mul_neg, Int.add_mul_emod_self_left]

theorem rot360_four (r : Int) :
    (((((r + 90).tmod 360 + 90).tmod 360 + 90).tmod 360 + 90).tmod 360) % 360 = r % 360 := by
  have key : ∀ t k : Int, (t.tmod 360 + k) % 360 = (t + k) % 360 := by
    intro t k
    rw [Int.add_emod, tmod_emod, ← Int.add_emod]
  rw [tmod_emod, key, add_assoc, key, add_assoc, key]
  omega

theorem applyRotation_one_cellLayout (p : PuzzlePiece) (fill : Char) :
    (applyRotation p 1 fill).cellLayout = gridRotStep p.cellLayout fill := by
  simp [applyRotation, gridRotStep]

theorem applyRotation_one_consLayout (p : PuzzlePiece) (fill : Char) :
    (applyRotation p 1 fill).consLayout = gridRotStep p.consLayout fill := by
  simp [applyRotation, gridRotStep]

theorem applyRotation_one_effect (p : PuzzlePiece) (fill : Char) :
    (applyRotation p 1 fill).effect = effectRotStep p.effect := by
  simp [applyRotation, effectRotStep]

theorem applyRotation_one_oneWayDir (p : PuzzlePiece) (fill : Char) :
    (applyRotation p 1 fill).oneWayDir = oneWayRotStep p.oneWayDir := by
  simp [applyRotation, oneWayRotStep]

theorem applyRotation_one_checkTypes (p : PuzzlePiece) (fill : Char) :
    (applyRotation p 1 fill).checkTypes = p.checkTypes.map checkTypeRotStep := by
  simp [applyRotation, checkTypeRotStep, networkRotStep]

theorem oneWayRotStep_lt {d : Nat} (h : d < 8) :
    oneWayRotStep d = (d + 1 * 2) % 8 := by
  unfold oneWayRotStep
  rw [if_pos ⟨by omega, h⟩]

theorem oneWayRotStep_four {d : Nat} (h : d < 8) :
    oneWayRotStep (oneWayRotStep (oneWayRotStep (oneWayRotStep d))) = d := by
  rw [oneWayRotStep_lt h]
  rw [oneWayRotStep_lt (show (d + 1 * 2) % 8 < 8 by omega)]
  rw [oneWayRotStep_lt (show ((d + 1 * 2) % 8 + 1 * 2) % 8 < 8 by omega)]
  rw [oneWayRotStep_lt (show (((d + 1 * 2) % 8 + 1 * 2) % 8 + 1 * 2) % 8 < 8 by omega)]
  omega

theorem effectRotStep_four_rotation (e : PreviewEffect) :
    (effectRotStep (effectRotStep (effectRotStep (effectRotStep e)))).rotation % 360 =
      e.rotation % 360 := by
  cases hinit : e.initialized
  · simp [effectRotStep, hinit]
  · have step : ∀ e' : PreviewEffect, e'.initialized = true →
        (effectRotStep e').initialized = true ∧
        (effectRotStep e').rotation = (e'.rotation + 90).tmod 360 := by
      intro e' h
      unfold effectRotStep
      rw [if_pos h]
      constructor
      · simpa using h
      · show (e'.rotation + 1 * 90).tmod 360 = _
        norm_num
    obtain ⟨i1, r1⟩ := step e hinit
    obtain ⟨i2, r2⟩ := step _ i1
    obtain ⟨i3, r3⟩ := step _ i2
    obtain ⟨i4, r4⟩ := step _ i3
    rw [r4, r3, r2, r1]
    exact rot360_four e.rotation

theorem networkRotStep_four {nc : NetworkCheck}
    (h1 : nc.ruleFlagByte < 4294967296) (h2 : nc.hexMask < 4294967296) :
    networkRotStep (networkRotStep (networkRotStep (networkRotStep nc))) = nc := by
  cases nc with
  | mk nt rule hex opt chk =>
      simp only [networkRotStep] at h1 h2 ⊢
      rw [rotEF_four h1, rotEF_four h2]

theorem checkTypeRotStep_four {ct : CheckType}
    (h : ∀ nc ∈ ct.networks, nc.ruleFlagByte < 4294967296 ∧ nc.hexMask < 4294967296) :
    checkTypeRotStep (checkTypeRotStep (checkTypeRotStep (checkTypeRotStep ct))) = ct := by
  cases ct with
  | mk init sym nets =>
      simp only [checkTypeRotStep, List.map_map]
      congr 1
      have : ∀ nc ∈ nets,
          (networkRotStep ∘ networkRotStep ∘ networkRotStep ∘ networkRotStep) nc = id nc := by
        intro nc hnc
        obtain ⟨hb1, hb2⟩ := h nc hnc
        show networkRotStep (networkRotStep (networkRotStep (networkRotStep nc))) = nc
        exact networkRotStep_four hb1 hb2
      calc nets.map (networkRotStep ∘ networkRotStep ∘ networkRotStep ∘ networkRotStep)
          = nets.map id := List.map_congr_left this
        _ = nets := List.map_id nets

/-- C6 (amended): applying the quarter-turn rotation step four times is
the identity up to grid normalization — provided each grid is empty or
has at least one non-empty row (a non-empty grid all of whose rows are
empty collapses to `[]` instead, see the counterexample): the cell and
cons grids come back as their rectangularly padded originals, the
preview-effect rotation is unchanged mod 360, a one-way direction below
the sentinel 8 is unchanged, and every network check (its 32-bit
`ruleFlagByte` and `hexMask` words included) is unchanged. -/
theorem rul0_rotate_four_identity (p : PuzzlePiece) (fill : Char)
    (hcell : p.cellLayout = [] ∨ 0 < maxWidth p.cellLayout)
    (hcons : p.consLayout = [] ∨ 0 < maxWidth p.consLayout)
    (hflags : ∀ ct ∈ p.checkTypes, ∀ nc ∈ ct.networks,
      nc.ruleFlagByte < 4294967296 ∧ nc.hexMask < 4294967296) :
    (rotateFour p fill).cellLayout = normalizeGrid p.cellLayout fill ∧
    (rotateFour p fill).consLayout = normalizeGrid p.consLayout fill ∧
    (rotateFour p fill).effect.rotation % 360 = p.effect.rotation % 360 ∧
    (p.oneWayDir < 8 → (rotateFour p fill).oneWayDir = p.oneWayDir) ∧
    (rotateFour p fill).checkTypes = p.checkTypes := by
  unfold rotateFour
  refine ⟨?_, ?_, ?_, ?_, ?_⟩
  · rw [applyRotation_one_cellLayout, applyRotation_one_cellLayout,
      applyRotation_one_cellLayout, applyRotation_one_cellLayout]
    exact gridRotStep4 p.cellLayout fill hcell
  · rw [applyRotation_one_consLayout, applyRotation_one_consLayout,
      applyRotation_one_consLayout, applyRotation_one_consLayout]
    exact gridRotStep4 p.consLayout fill hcons
  · rw [applyRotation_one_effect, applyRotation_one_effect,
      applyRotation_one_effect, applyRotation_one_effect]
    exact effectRotStep_four_rotation p.effect
  · intro hdir
    rw [applyRotation_one_oneWayDir, applyRotation_one_oneWayDir,
      applyRotation_one_oneWayDir, applyRotation_one_oneWayDir]
    exact oneWayRotStep_four hdir
  · rw [applyRotation_one_checkTypes, applyRotation_one_checkTypes,
      applyRotation_one_checkTypes, applyRotation_one_checkTypes]
    simp only [List.map_map]
    have : ∀ ct ∈ p.checkTypes,
        (checkTypeRotStep ∘ checkTypeRotStep ∘ checkTypeRotStep ∘ checkTypeRotStep) ct =
          id ct := by
      intro ct hct
      show checkTypeRotStep (checkTypeRotStep (checkTypeRotStep (checkTypeRotStep ct))) = ct
      exact checkTypeRotStep_four (hflags ct hct)
    calc p.checkTypes.map (checkTypeRotStep ∘ checkTypeRotStep ∘ checkTypeRotStep ∘ checkTypeRotStep)
        = p.checkTypes.map id := List.map_congr_left this
      _ = p.checkTypes := List.map_id p.checkTypes

/-- Witness for C6 at a concrete piece: 2×2 cell grid, preview rotation
123, one-way direction 3, one network check. -/
theorem rul0_rotate_four_identity_witness :
    (rotateFour rotWitnessPiece 'x').cellLayout = normalizeGrid rotWitnessPiece.cellLayout 'x' ∧
    (rotateFour rotWitnessPiece 'x').consLayout = normalizeGrid rotWitnessPiece.consLayout 'x' ∧
    (rotateFour rotWitnessPiece 'x').effect.rotation % 360 =
      rotWitnessPiece.effect.rotation % 360 ∧
    (rotWitnessPiece.oneWayDir < 8 → (rotateFour rotWitnessPiece 'x').oneWayDir =
      rotWitnessPiece.oneWayDir) ∧
    (rotateFour rotWitnessPiece 'x').checkTypes = rotWitnessPiece.checkTypes :=
  rul0_rotate_four_identity rotWitnessPiece 'x' (by decide) (by decide) (by decide)

/-- C6 counterexample: a piece whose cell grid is one empty row.  Four
quarter-turn steps turn `[""]` into `[]`, but the normalized original is
`[""]`, so the claim's grid equation fails on this piece. -/
theorem rul0_rotate_four_empty_row_fails :
    (rotateFour pieceEmptyRow 'x').cellLayout = [] ∧
    normalizeGrid pieceEmptyRow.cellLayout 'x' = [[]] ∧
    ([] : Grid) ≠ [[]] :=
  ⟨by decide, by decide, by decide⟩

/-- C5 (amended): `CopyPuzzlePiece` copies `effect`, both grids,
`checkTypes`, `autoPathBase`, `autoTileBase`, `replacementIntersection`,
`costs`, `convertQueryId`, `autoPlace`, `handleOffset`, `stepOffsets`
and `oneWayDir` from the source, and preserves the destination's `id`
and `placeQueryId` — but also its declarative `copyFrom`, `rotate`,
`transpose` and `translate` fields and both transform records, which
are not copied. -/
theorem copyPuzzlePiece_fields (source dest : PuzzlePiece) :
    (copyPuzzlePiece source dest).effect = source.effect ∧
    (copyPuzzlePiece source dest).cellLayout = source.cellLayout ∧
    (copyPuzzlePiece source dest).checkTypes = source.checkTypes ∧
    (copyPuzzlePiece source dest).consLayout = source.consLayout ∧
    (copyPuzzlePiece source dest).autoPathBase = source.autoPathBase ∧
    (copyPuzzlePiece source dest).autoTileBase = source.autoTileBase ∧
    (copyPuzzlePiece source dest).replacementIntersection = source.replacementIntersection ∧
    (copyPuzzlePiece source dest).costs = source.costs ∧
    (copyPuzzlePiece source dest).convertQueryId = source.convertQueryId ∧
    (copyPuzzlePiece source dest).autoPlace = source.autoPlace ∧
    (copyPuzzlePiece source dest).handleOffset = source.handleOffset ∧
    (copyPuzzlePiece source dest).stepOffsets = source.stepOffsets ∧
    (copyPuzzlePiece source dest).oneWayDir = source.oneWayDir ∧
    (copyPuzzlePiece source dest).id = dest.id ∧
    (copyPuzzlePiece source dest).placeQueryId = dest.placeQueryId ∧
    (copyPuzzlePiece source dest).copyFrom = dest.copyFrom ∧
    (copyPuzzlePiece source dest).rotate = dest.rotate ∧
    (copyPuzzlePiece source dest).transpose = dest.transpose ∧
    (copyPuzzlePiece source dest).translate = dest.translate ∧
    (copyPuzzlePiece source dest).requestedTransform = dest.requestedTransform ∧
    (copyPuzzlePiece source dest).appliedTransform = dest.appliedTransform := by
  refine ⟨rfl, rfl, rfl, rfl, rfl, rfl, rfl, rfl, rfl, rfl, rfl,
    rfl, rfl, rfl, rfl, rfl, rfl, rfl, rfl, rfl, rfl⟩

/-- C5 counterexample: the copy step does not transfer the declarative
transform — after copying from `srcPiece` (rotate 0) into `dstPiece`
(rotate 2), the destination's `rotate` is still 2, not the source's 0
(likewise `copyFrom`, `transpose`, `translate` keep the destination's
values). -/
theorem copyPuzzlePiece_keeps_dest_transform :
    (copyPuzzlePiece srcPiece dstPiece).rotate = 2 ∧
    srcPiece.rotate = 0 ∧
    (copyPuzzlePiece srcPiece dstPiece).transpose = true ∧
    srcPiece.transpose = false ∧
    (copyPuzzlePiece srcPiece dstPiece).copyFrom = 1 ∧
    srcPiece.copyFrom = 0 :=
  ⟨rfl, rfl, rfl, rfl, rfl, rfl⟩

end RUL0



namespace Exemplar

theorem scanWhileAux_stop (p : Char → Bool) (s : List Char) (fuel pos : Nat)
    (h : ¬(pos < s.length ∧ p (s.getD pos ' ') = true)) :
    scanWhileAux p s fuel pos = pos := by
  cases fuel with
  | zero => rfl
  | succ fuel =>
      unfold scanWhileAux
      rw [if_neg h]

theorem scanWhileAux_run (p : Char → Bool) (s : List Char) :
    ∀ (k fuel pos : Nat),
      (∀ i, i < k → pos + i < s.length ∧ p (s.getD (pos + i) ' ') = true) →
      ¬(pos + k < s.length ∧ p (s.getD (pos + k) ' ') = true) →
      k < fuel →
      scanWhileAux p s fuel pos = pos + k := by
  intro k
  induction k with
  | zero =>
      intro fuel pos h hstop hfuel
      have := scanWhileAux_stop p s fuel pos (by simpa using hstop)
      simpa using this
  | succ k ih =>
      intro fuel pos h hstop hfuel
      cases fuel with
      | zero => omega
      | succ fuel =>
          unfold scanWhileAux
          rw [if_pos (by simpa using h 0 (by omega))]
          have hrec := ih fuel (pos + 1)
            (fun i hi => by
              have hx : pos + 1 + i = pos + (i + 1) := by omega
              rw [hx]
              exact h (i + 1) (by omega))
            (by
              have hx : pos + 1 + k = pos + (k + 1) := by omega
              rw [hx]
              exact hstop)
            (by omega)
          rw [hrec]
          omega

theorem getD_cons2 (a b : Char) (t : List Char) (i : Nat) (d : Char) :
    ((a :: b :: t).getD (2 + i) d) = t.getD i d := by
  have hx : 2 + i = i + 1 + 1 := by omega
  rw [hx]
  rfl

theorem getD_append_length (ds : List Char) (r : Char) (t : List Char) :
    (ds ++ r :: t).getD ds.length ' ' = r := by
  induction ds with
  | nil => rfl
  | cons a ds ih => simpa using ih

/-- C7 general part helper: the hex scan inside `ParseIntegerLiteral`
on `0x<ds><rest>` stops exactly after `ds`. -/
theorem hexScan_run (ds rest : List Char)
    (hdig : ∀ c ∈ ds, isXDigitC c = true)
    (hrest : rest = [] ∨ isXDigitC (rest.headD ' ') = false) :
    scanWhileAux isXDigitC ('0' :: 'x' :: (ds ++ rest))
        ('0' :: 'x' :: (ds ++ rest)).length 2 = 2 + ds.length := by
  apply scanWhileAux_run
  · intro i hi
    constructor
    · simp
      omega
    · rw [getD_cons2, List.getD_append _ _ _ _ hi]
      have : ds.getD i ' ' ∈ ds := by
        rw [List.getD_eq_getElem _ _ hi]
        exact List.getElem_mem hi
      exact hdig _ this
  · rw [getD_cons2]
    rcases hrest with h | h
    · subst h
      simp
      intro hlt
      omega
    · intro hcon
      cases rest with
      | nil => simp at hcon; omega
      | cons r t =>
          rw [getD_append_length] at hcon
          simp only [List.headD_cons] at h
          rw [hcon.2] at h
          exact absurd h (by simp)
  · simp
    omega

end Exemplar

namespace Exemplar

/-- C7: a hexadecimal literal whose magnitude is `2^32` or more is
rejected for a signed-int32 property: `ParseIntegerLiteral` (signed,
32 bits) returns an error on `0x<ds>` whenever the digits' value is at
least `2^32`, and so does the `SInt32` case of `ParseValueVariant`. -/
theorem sint32_rejects_wide_hex (ds rest : List Char) (hne : ds ≠ [])
    (hdig : ∀ c ∈ ds, isXDigitC c = true)
    (hrest : rest = [] ∨ isXDigitC (rest.headD ' ') = false)
    (hval : 4294967296 ≤ hexListVal ds) :
    ∃ e, parseSInt32Value ('0' :: 'x' :: (ds ++ rest)) 0 = Except.error e := by
  set s := '0' :: 'x' :: (ds ++ rest) with hs
  have hlen : s.length = 2 + ds.length + rest.length := by
    simp [hs]
    omega
  have hdsl : 1 ≤ ds.length := by
    cases ds with
    | nil => exact absurd rfl hne
    | cons a t => simp
  have hg0 : s.getD 0 ' ' = '0' := by rw [hs]; rfl
  have hg1 : s.getD 1 ' ' = 'x' := by rw [hs]; rfl
  have hws : skipWs s 0 = 0 := by
    apply scanWhileAux_stop
    intro hcon
    rw [hg0] at hcon
    exact absurd hcon.2 (by decide)
  have hdigEnd : scanWhileAux isXDigitC s s.length 2 = 2 + ds.length := by
    rw [hs]
    exact hexScan_run ds rest hdig hrest
  have hdrop : s.drop 2 = ds ++ rest := by rw [hs]; rfl
  have hv : hexListVal ((s.drop 2).take (2 + ds.length - 2)) = hexListVal ds := by
    rw [hdrop, show 2 + ds.length - 2 = ds.length from by omega, List.take_left]
  have h232 : (2 : Nat) ^ 32 = 4294967296 := by norm_num
  have htail : parseHexTail s 2 false true 32 = Except.error
      (if 18446744073709551616 ≤ hexListVal ds then
        "Failed to parse hexadecimal literal" else "Hex literal exceeds signed bit range") := by
    unfold parseHexTail
    rw [hdigEnd, if_neg (by omega)]
    simp only [hv]
    by_cases hbig : 18446744073709551616 ≤ hexListVal ds
    · rw [if_pos hbig, if_pos hbig]
    · rw [if_neg hbig, if_neg hbig, if_pos trivial,
        if_neg (show ¬(32 < 1 ∨ 64 < 32) from by omega), if_pos (show 32 < 64 from by omega),
        if_pos (show 2 ^ 32 ≤ hexListVal ds from by rw [h232]; exact hval)]
  have hneg : (decide (s.getD 0 ' ' = '-')) = false := by
    rw [hg0]
    decide
  have hpil : parseIntegerLiteral s 0 true 32 = parseHexTail s 2 false true 32 := by
    simp only [parseIntegerLiteral, hws, hg0, hg1]
    rw [if_neg (by omega)]
    rw [if_neg (show ¬('0' = '-' ∧ s.length ≤ if '0' = '-' then 0 + 1 else 0) from by
      intro hcon
      exact absurd hcon.1 (by decide))]
    rw [if_neg (show ¬('0' = '-') from by decide)]
    rw [if_pos (show 0 + 2 ≤ s.length ∧ s.getD 0 ' ' = '0' ∧
        (s.getD (0 + 1) ' ' = 'x' ∨ s.getD (0 + 1) ' ' = 'X') from
      ⟨by omega, hg0, Or.inl hg1⟩)]
    rfl
  refine ⟨if 18446744073709551616 ≤ hexListVal ds then
      "Failed to parse hexadecimal literal" else "Hex literal exceeds signed bit range", ?_⟩
  unfold parseSInt32Value
  rw [hpil, htail]


/-- C7: in the text exemplar dialect a hex literal for a signed-int32
property is read as a 32-bit two's-complement value — the value list
`{0xFFFFFFF6, 0x0000000A}` parses to `[-10, 10]` — and any hex literal
whose magnitude is `2^32` or more is rejected. -/
theorem exemplar_sint32_hex_twos_complement :
    parseValueArraySInt32 "{0xFFFFFFF6, 0x0000000A}".data 0 = Except.ok ([-10, 10], 24) ∧
    (∀ ds rest : List Char, ds ≠ [] → (∀ c ∈ ds, isXDigitC c = true) →
      (rest = [] ∨ isXDigitC (rest.headD ' ') = false) →
      4294967296 ≤ hexListVal ds →
      ∃ e, parseSInt32Value ('0' :: 'x' :: (ds ++ rest)) 0 = Except.error e) :=
  ⟨by rfl, sint32_rejects_wide_hex⟩

/-- Witness for C7's general part at the literal `0x100000000`
(= `2^32`). -/
theorem exemplar_sint32_hex_twos_complement_witness :
    ∃ e, parseSInt32Value ('0' :: 'x' :: ("100000000".data ++ [])) 0 = Except.error e :=
  exemplar_sint32_hex_twos_complement.2 "100000000".data []
    (by decide) (by decide) (by decide) (by decide)

end Exemplar
